import Mathlib

/-!
# fuelflux.kbd: MCP23017 keypad scanner

A shallow embedding of `src/mcp23017.cpp` (the register-level driver) and of
the scan loop of `src/main.cpp` (row strobing and the debounce state machine),
followed by the properties proved about them.

Conventions of the embedding:

* `uint8_t` values are `Nat`; a value coming from outside (a byte read from the
  bus) or produced by a narrowing cast is reduced `% 256`.
* the operating system and the chip behind it are an explicit environment
  `Env σ`: every system call the code makes is a function on the environment
  state `σ`, and every bus system call is appended to a trace.
* a C++ exception is an `Except.error` returned together with the world as it
  was when the exception was thrown.
* `for` loops count their remaining iterations down (`n` iterations left,
  index `4 - n`), so that they are structurally recursive.
-/

namespace Kbd

/-! ## The environment -/

/-- System calls made on the bus device, in the order the code makes them. -/
inductive BusOp where
  | sysOpen (dev : String)
  | sysIoctl (fd : Int) (addr : Nat)
  | sysClose (fd : Int)
  | sysWrite (fd : Int) (buf : List Nat)
  | sysRead (fd : Int) (count : Nat)
  deriving DecidableEq, Repr

/-- Exceptions thrown by the driver: `ensure_open` throws
`runtime_error("MCP23017: bus is not open")`, every other failure is
`sys_err(what)`. -/
inductive Err where
  | notOpen
  | sysErr (what : String)
  deriving DecidableEq, Repr

/-- What the code's surroundings do: the bus device behind `::open`, `::ioctl`,
`::close`, `::write`, `::read`, the passing of time in `sleep_for`, and the
signal flag `g_stop`. -/
structure Env (σ : Type) where
  /-- The call `::open(dev, O_RDWR | O_CLOEXEC)`: the descriptor, negative on failure. -/
  sysOpen : σ → String → σ × Int
  /-- The call `::ioctl(fd, I2C_SLAVE, addr)`: negative on failure. -/
  sysIoctl : σ → Int → Nat → σ × Int
  /-- The call `::close(fd)`; its return value is not looked at. -/
  sysClose : σ → Int → σ
  /-- The call `::write(fd, buf, n)` with `n = buf.length`: the number of bytes written, or `-1`. -/
  sysWrite : σ → Int → List Nat → σ × Int
  /-- The call `::read(fd, rbuf, 1)`: the return value and the byte left in `rbuf[0]`. -/
  sysRead : σ → Int → σ × Int × Nat
  /-- The call `std::this_thread::sleep_for`, in microseconds. -/
  sleep : σ → Nat → σ
  /-- One read of the volatile flag `g_stop`. -/
  stop : σ → σ × Bool

/-- The world the program runs in: the environment state, the bus system calls
made so far, and what has been written to `std::cout` so far. -/
structure World (σ : Type) where
  env : σ
  trace : List BusOp
  cout : List String

/-! ## The driver (`mcp23017.cpp`) -/

def REG_IODIRA : Nat := 0x00
def REG_IPOLA : Nat := 0x02
def REG_GPPUA : Nat := 0x0C
def REG_GPIOA : Nat := 0x12
def REG_OLATA : Nat := 0x14

/-- The private members of `class MCP23017`. -/
structure MCP23017 where
  dev_ : String
  addr_ : Nat
  fd_ : Int := -1
  deriving DecidableEq, Repr

/-- Member `MCP23017::open_bus`. -/
def open_bus {σ : Type} (E : Env σ) (h : MCP23017) (w : World σ) :
    Except Err Unit × MCP23017 × World σ :=
  if h.fd_ ≥ 0 then (.ok (), h, w)
  else
    let o := E.sysOpen w.env h.dev_
    let w1 : World σ := { w with env := o.1, trace := w.trace ++ [BusOp.sysOpen h.dev_] }
    let h1 : MCP23017 := { h with fd_ := o.2 }
    if h1.fd_ < 0 then (.error (Err.sysErr "open(i2c)"), h1, w1)
    else
      let i := E.sysIoctl w1.env h1.fd_ h1.addr_
      let w2 : World σ := { w1 with env := i.1, trace := w1.trace ++ [BusOp.sysIoctl h1.fd_ h1.addr_] }
      if i.2 < 0 then
        let w3 : World σ :=
          { w2 with env := E.sysClose w2.env h1.fd_, trace := w2.trace ++ [BusOp.sysClose h1.fd_] }
        (.error (Err.sysErr "ioctl(I2C_SLAVE)"), { h1 with fd_ := -1 }, w3)
      else (.ok (), h1, w2)

/-- Member `MCP23017::close_bus`. -/
def close_bus {σ : Type} (E : Env σ) (h : MCP23017) (w : World σ) : MCP23017 × World σ :=
  if h.fd_ ≥ 0 then
    ({ h with fd_ := -1 },
     { w with env := E.sysClose w.env h.fd_, trace := w.trace ++ [BusOp.sysClose h.fd_] })
  else (h, w)

/-- Member `MCP23017::ensure_open`. -/
def ensure_open (h : MCP23017) : Except Err Unit :=
  if h.fd_ < 0 then .error Err.notOpen else .ok ()

/-- Member `MCP23017::read_reg`: write the register address, read one byte back. -/
def read_reg {σ : Type} (E : Env σ) (h : MCP23017) (reg : Nat) (w : World σ) :
    Except Err Nat × World σ :=
  match ensure_open h with
  | .error e => (.error e, w)
  | .ok () =>
    let wr := E.sysWrite w.env h.fd_ [reg]
    let w1 : World σ := { w with env := wr.1, trace := w.trace ++ [BusOp.sysWrite h.fd_ [reg]] }
    if wr.2 ≠ 1 then (.error (Err.sysErr "i2c write(reg)"), w1)
    else
      let rd := E.sysRead w1.env h.fd_
      let w2 : World σ := { w1 with env := rd.1, trace := w1.trace ++ [BusOp.sysRead h.fd_ 1] }
      if rd.2.1 ≠ 1 then (.error (Err.sysErr "i2c read(data)"), w2)
      else (.ok (rd.2.2 % 256), w2)

/-- Member `MCP23017::write_reg`: one write of `[reg, value]`. -/
def write_reg {σ : Type} (E : Env σ) (h : MCP23017) (reg value : Nat) (w : World σ) :
    Except Err Unit × World σ :=
  match ensure_open h with
  | .error e => (.error e, w)
  | .ok () =>
    let wr := E.sysWrite w.env h.fd_ [reg, value]
    let w1 : World σ :=
      { w with env := wr.1, trace := w.trace ++ [BusOp.sysWrite h.fd_ [reg, value]] }
    if wr.2 ≠ 2 then (.error (Err.sysErr "i2c write(reg,value)"), w1)
    else (.ok (), w1)

/-- Member `MCP23017::configure_portA`; `ipol` has the default argument `0x00`. -/
def configure_portA {σ : Type} (E : Env σ) (h : MCP23017) (iodir gppu : Nat) (w : World σ)
    (ipol : Nat := 0x00) : Except Err Unit × World σ :=
  match write_reg E h REG_IODIRA iodir w with
  | (.error e, w1) => (.error e, w1)
  | (.ok (), w1) =>
    match write_reg E h REG_GPPUA gppu w1 with
    | (.error e, w2) => (.error e, w2)
    | (.ok (), w2) => write_reg E h REG_IPOLA ipol w2

/-- Member `MCP23017::read_gpioA`. -/
def read_gpioA {σ : Type} (E : Env σ) (h : MCP23017) (w : World σ) : Except Err Nat × World σ :=
  read_reg E h REG_GPIOA w

/-- Member `MCP23017::write_olata`. -/
def write_olata {σ : Type} (E : Env σ) (h : MCP23017) (value : Nat) (w : World σ) :
    Except Err Unit × World σ :=
  write_reg E h REG_OLATA value w

/-! ## The scan loop (`main.cpp`) -/

/-- The table `keymap[4][4]` of `main`. -/
def keymapTable : List (List Char) :=
  [['1', '2', '3', 'A'],
   ['4', '5', '6', 'B'],
   ['7', '8', '9', 'C'],
   ['*', '0', '#', 'D']]

/-- The lookup `keymap[r][c]`. -/
def keymap (r c : Nat) : Char := (keymapTable.getD r []).getD c '\x00'

def ROW_MASK : Nat := 0b00001111
def COL_MASK : Nat := 0b11110000

/-- The local `rows_idle = ROW_MASK`. -/
def rows_idle : Nat := ROW_MASK

/-- The byte written for row `r`: `rows_idle & static_cast<uint8_t>(~(1u << r))`,
with `~` taken on 32 bits. -/
def row_out (r : Nat) : Nat :=
  rows_idle &&& ((4294967295 - (1 <<< r) % 4294967296) % 256)

/-- The byte `static_cast<uint8_t>(1u << (4 + c))`. -/
def col_bit (c : Nat) : Nat := ((1 <<< (4 + c)) % 4294967296) % 256

/-- The inner loop `for (int c = 0; c < 4; c++)`, with `n` iterations left
(`c = 4 - n`): the first column whose bit is clear sets `found` and breaks. -/
def col_loop (r cols : Nat) (found : Char) : Nat → Char
  | 0 => found
  | n + 1 =>
    let c := 4 - (n + 1)
    if cols &&& col_bit c = 0 then keymap r c
    else col_loop r cols found n

/-- The row loop `for (int r = 0; r < 4 && !found; r++)`, with `n` iterations
left (`r = 4 - n`). The same loop is written three times in `main` (for
`found`, `confirm` and `again`). -/
def row_loop {σ : Type} (E : Env σ) (h : MCP23017) :
    Nat → Char → World σ → Except Err Char × World σ
  | 0, found, w => (.ok found, w)
  | n + 1, found, w =>
    if found ≠ '\x00' then (.ok found, w)
    else
      let r := 4 - (n + 1)
      match write_olata E h (row_out r) w with
      | (.error e, w1) => (.error e, w1)
      | (.ok (), w1) =>
        let w2 : World σ := { w1 with env := E.sleep w1.env 300 }
        match read_gpioA E h w2 with
        | (.error e, w3) => (.error e, w3)
        | (.ok gpioA, w3) =>
          let cols := (gpioA &&& COL_MASK) % 256
          let found1 := if cols ≠ COL_MASK then col_loop r cols found 4 else found
          row_loop E h n found1 w3

/-- One scan pass: the row loop from `'\0'`, then `mcp.write_olata(rows_idle)`.
`main` has this text three times: lines 105 to 134 (the initial scan, into
`found`), 142 to 158 (the confirmation sub-scan, into `confirm`) and 171 to 187
(the release-confirmation sub-scan, into `again`). -/
def scan_pass {σ : Type} (E : Env σ) (h : MCP23017) (w : World σ) : Except Err Char × World σ :=
  match row_loop E h 4 '\x00' w with
  | (.error e, w1) => (.error e, w1)
  | (.ok found, w1) =>
    match write_olata E h rows_idle w1 with
    | (.error e, w2) => (.error e, w2)
    | (.ok (), w2) => (.ok found, w2)

/-- The locals `last_key` and `waiting_release` of `main`. -/
structure ScanState where
  last_key : Char := '\x00'
  waiting_release : Bool := false
  deriving DecidableEq, Repr

/-- The text of `std::cout << "Pressed: " << found << "\n"`. -/
def pressed_line (found : Char) : String := "Pressed: " ++ found.toString ++ "\n"

/-- The body of `while (!g_stop)`: lines 105 to 196 of `main.cpp`. -/
def loop_body {σ : Type} (E : Env σ) (h : MCP23017) (poll_ms : Nat) (st : ScanState)
    (w : World σ) : Except Err Unit × ScanState × World σ :=
  match scan_pass E h w with
  | (.error e, w1) => (.error e, st, w1)
  | (.ok found, w1) =>
    if st.waiting_release = false then
      if found ≠ '\x00' then
        let w2 : World σ := { w1 with env := E.sleep w1.env 20000 }
        match scan_pass E h w2 with
        | (.error e, w3) => (.error e, st, w3)
        | (.ok confirm, w3) =>
          if confirm = found then
            let w4 : World σ := { w3 with cout := w3.cout ++ [pressed_line found] }
            (.ok (), { last_key := found, waiting_release := true },
              { w4 with env := E.sleep w4.env (poll_ms * 1000) })
          else (.ok (), st, { w3 with env := E.sleep w3.env (poll_ms * 1000) })
      else (.ok (), st, { w1 with env := E.sleep w1.env (poll_ms * 1000) })
    else
      if found = '\x00' then
        let w2 : World σ := { w1 with env := E.sleep w1.env 30000 }
        match scan_pass E h w2 with
        | (.error e, w3) => (.error e, st, w3)
        | (.ok again, w3) =>
          if again = '\x00' then
            (.ok (), { last_key := '\x00', waiting_release := false },
              { w3 with env := E.sleep w3.env (poll_ms * 1000) })
          else (.ok (), st, { w3 with env := E.sleep w3.env (poll_ms * 1000) })
      else (.ok (), st, { w1 with env := E.sleep w1.env (poll_ms * 1000) })

/-- How far the loop `while (!g_stop)` has got. -/
inductive Status where
  | running
  | stopped
  | failed (e : Err)
  deriving DecidableEq, Repr

/-- A point of the run of the scan loop, taken where the loop condition is evaluated. -/
structure Run (σ : Type) where
  status : Status
  st : ScanState
  w : World σ

/-- One turn of `while (!g_stop)`: read the flag, leave the loop if it is set,
otherwise run the body; an exception leaves the loop too. -/
def loop_turn {σ : Type} (E : Env σ) (h : MCP23017) (poll_ms : Nat) (c : Run σ) : Run σ :=
  match c.status with
  | .running =>
    let s := E.stop c.w.env
    let w0 : World σ := { c.w with env := s.1 }
    if s.2 then { c with status := .stopped, w := w0 }
    else
      match loop_body E h poll_ms c.st w0 with
      | (.error e, st1, w1) => { status := .failed e, st := st1, w := w1 }
      | (.ok (), st1, w1) => { status := .running, st := st1, w := w1 }
  | _ => c

/-- The run of `while (!g_stop)` cut after `n` evaluations of the loop
condition; once the loop has been left nothing changes any more. -/
def main_loop {σ : Type} (E : Env σ) (h : MCP23017) (poll_ms : Nat) : Nat → Run σ → Run σ
  | 0, c => c
  | n + 1, c => loop_turn E h poll_ms (main_loop E h poll_ms n c)

/-! ## Simulated environments -/

/-- State of a simulated MCP23017 with a 4x4 keypad on port A. -/
structure SimChip where
  /-- Register address latched by the last one-byte write. -/
  ptr : Nat := 0
  /-- Output latch of port A. -/
  olat : Nat := 0
  /-- Number of reads of `g_stop` so far, which is the number of the loop turn. -/
  turns : Nat := 0
  deriving DecidableEq, Repr

/-- The column nibble the simulated keypad shows: with key `(r, c)` held and
row `r` the one row driven low, column `c` is low; otherwise all columns are high. -/
def simCols (key : Option (Nat × Nat)) (olat : Nat) : Nat :=
  match key with
  | some (r, c) => if olat % 16 = 15 - 2 ^ r then 0xF0 &&& (255 - 2 ^ (4 + c)) else 0xF0
  | none => 0xF0

/-- A simulated chip and keypad that never fail. `keys t` is the key held during
loop turn `t` (the first turn is turn 1, and turn 0 is the time before the
loop), and `g_stop` reads as set once `stopAfter` turns have run. The output pins read
back what the latch drives. -/
def simEnv (keys : Nat → Option (Nat × Nat)) (stopAfter : Nat) : Env SimChip where
  sysOpen s _ := (s, 3)
  sysIoctl s _ _ := (s, 0)
  sysClose s _ := s
  sysWrite s _ buf :=
    match buf with
    | [reg] => ({ s with ptr := reg }, 1)
    | [reg, v] => (if reg = 0x14 then { s with olat := v } else s, 2)
    | _ => (s, buf.length)
  sysRead s _ :=
    if s.ptr = 0x12 then (s, 1, simCols (keys s.turns) s.olat ||| (s.olat % 16))
    else if s.ptr = 0x14 then (s, 1, s.olat)
    else (s, 1, 0)
  sleep s _ := s
  stop s := ({ s with turns := s.turns + 1 }, decide (stopAfter ≤ s.turns))

/-- A scripted bus: every write succeeds, and the reads return the bytes of the
state one after the other (a read past the end of the script fails). -/
def scriptEnv : Env (List Nat) where
  sysOpen s _ := (s, 3)
  sysIoctl s _ _ := (s, 0)
  sysClose s _ := s
  sysWrite s _ buf := (s, buf.length)
  sysRead s _ :=
    match s with
    | [] => ([], -1, 0)
    | g :: rest => (rest, 1, g)
  sleep s _ := s
  stop s := (s, false)

/-- A bus that carries out `s` more transactions and fails every one after
them: a failed write or read returns `-1`. A successful read returns `0xF0`. -/
def flakyEnv : Env Nat where
  sysOpen s _ := (s, 3)
  sysIoctl s _ _ := (s, 0)
  sysClose s _ := s
  sysWrite s _ buf := if s = 0 then (0, -1) else (s - 1, buf.length)
  sysRead s _ := if s = 0 then (0, -1, 0) else (s - 1, 1, 0xF0)
  sleep s _ := s
  stop s := (s, false)

/-- An open handle, as `open_bus` leaves it on the simulated bus. -/
def openHandle : MCP23017 := { dev_ := "/dev/i2c-3", addr_ := 0x20, fd_ := 3 }

/-- A handle as the constructor leaves it: `fd_` is `-1`. -/
def closedHandle : MCP23017 := { dev_ := "/dev/i2c-3", addr_ := 0x20 }

/-- The world before anything has happened. -/
def World.init {σ : Type} (s : σ) : World σ := { env := s, trace := [], cout := [] }

/-- The run at the first evaluation of the loop condition: `last_key = '\0'`,
`waiting_release = false`. -/
def Run.init {σ : Type} (w : World σ) : Run σ := { status := .running, st := {}, w := w }

/-! ## Names for parts of the scan -/

/-- What one visit of row `r` makes of `found = '\0'`: the part of the row loop's
body after the read, as a function of the byte `read_gpioA` returned. -/
def detect (r gpioA : Nat) : Char :=
  let cols := (gpioA % 256 &&& COL_MASK) % 256
  if cols ≠ COL_MASK then col_loop r cols '\x00' 4 else '\x00'

/-- The three bus system calls of one visit of row `r`. -/
def strobe_ops (fd : Int) (r : Nat) : List BusOp :=
  [BusOp.sysWrite fd [REG_OLATA, row_out r], BusOp.sysWrite fd [REG_GPIOA], BusOp.sysRead fd 1]

/-- The three things a turn does to state and output: nothing; the silent
release from a pressed state; the press from Idle, with its one printed line. -/
def TurnEffect (st : ScanState) (cout : List String) (st1 : ScanState) (cout1 : List String) :
    Prop :=
  (st1 = st ∧ cout1 = cout) ∨
  (st.waiting_release = true ∧ st1 = { last_key := '\x00', waiting_release := false } ∧
    cout1 = cout) ∨
  (∃ K, K ≠ '\x00' ∧ st.waiting_release = false ∧
    st1 = { last_key := K, waiting_release := true } ∧ cout1 = cout ++ [pressed_line K])

/-- Keys for a run with two presses: `8` held for two turns, nothing for two
turns, then `1`. -/
def twoPresses (t : Nat) : Option (Nat × Nat) :=
  if t ≤ 2 then some (2, 1) else if t ≤ 4 then none else some (0, 0)

/-- Keys of the end-to-end scenario: row 2, column 1 held during turns 1 to 3,
nothing held afterwards. -/
def scenarioKeys (t : Nat) : Option (Nat × Nat) :=
  if t ≤ 3 then some (2, 1) else none

/-- A transport that does not fail: every write returns the length it was
given and every one-byte read returns 1. -/
def Reliable {σ : Type} (E : Env σ) : Prop :=
  (∀ (s : σ) (fd : Int) (buf : List Nat), (E.sysWrite s fd buf).2 = buf.length) ∧
  (∀ (s : σ) (fd : Int), (E.sysRead s fd).2.1 = 1)

/-- The write that restores the idle latch: `write_olata(rows_idle)`. -/
def restore_op (fd : Int) : BusOp := BusOp.sysWrite fd [REG_OLATA, rows_idle]

/-- The bus system calls of the visits of rows `first`, `first + 1`, ... (`k` rows). -/
def strobes (fd : Int) (first k : Nat) : List BusOp :=
  (List.range k).flatMap (fun i => strobe_ops fd (first + i))

/-- A bus device whose `::open` returns `openRet` and whose `::ioctl` returns
`ioctlRet`; writes and reads go through, a read returns `0xF0`. -/
def deviceEnv (openRet ioctlRet : Int) : Env Unit where
  sysOpen s _ := (s, openRet)
  sysIoctl s _ _ := (s, ioctlRet)
  sysClose s _ := s
  sysWrite s _ buf := (s, buf.length)
  sysRead s _ := (s, 1, 0xF0)
  sleep s _ := s
  stop s := (s, false)

/-- The statement sequence `mcp.open_bus(); mcp.open_bus();`: an exception
thrown by the first call leaves the sequence. -/
def open_bus_twice {σ : Type} (E : Env σ) (h : MCP23017) (w : World σ) :
    Except Err Unit × MCP23017 × World σ :=
  match open_bus E h w with
  | (.error e, h1, w1) => (.error e, h1, w1)
  | (.ok (), h1, w1) => open_bus E h1 w1

/-- The statement sequence `mcp.close_bus(); mcp.close_bus();`. -/
def close_bus_twice {σ : Type} (E : Env σ) (h : MCP23017) (w : World σ) : MCP23017 × World σ :=
  close_bus E (close_bus E h w).1 (close_bus E h w).2

/-- The bounds of `long` (64 bits, as on LP64 Linux); `parse_u8` only compares
the value with `0` and `0x7F`, so any width of at least 8 bits gives the same
results. -/
def LONG_MAX : Int := 9223372036854775807

/-- The least `long`. -/
def LONG_MIN : Int := -9223372036854775808

/-- The C library's `isspace` in the "C" locale. -/
def isspace (c : Char) : Bool :=
  c == ' ' || c == '\t' || c == '\n' || c == '\x0b' || c == '\x0c' || c == '\r'

/-- The value of a character as a digit, letters standing for 10 to 35. -/
def digit_value (c : Char) : Option Nat :=
  if '0' ≤ c ∧ c ≤ '9' then some (c.toNat - '0'.toNat)
  else if 'a' ≤ c ∧ c ≤ 'z' then some (c.toNat - 'a'.toNat + 10)
  else if 'A' ≤ c ∧ c ≤ 'Z' then some (c.toNat - 'A'.toNat + 10)
  else none

/-- The longest run of digits of the given base at the head of the text: the
number they spell, after `acc`, and the text that follows them. -/
def take_digits (base : Nat) : List Char → Nat → Nat × List Char
  | [], acc => (acc, [])
  | c :: cs, acc =>
    match digit_value c with
    | some d => if d < base then take_digits base cs (acc * base + d) else (acc, c :: cs)
    | none => (acc, c :: cs)

/-- The C library's `strtol(nptr, &end, 0)`, after the C standard (7.22.1.4):
white space is skipped, then an optional sign, then with base 0 a `0x` or `0X`
before a hexadecimal digit selects base 16, another leading `0` base 8, anything
else base 10; the longest run of digits of that base is converted and `end` is
left behind it. If there is no digit at all nothing is converted: the result is
0 and `end` is `nptr`. A value out of the range of `long` is clamped. The result
is the value and the text `end` points to. -/
def strtol (nptr : List Char) : Int × List Char :=
  let s1 := nptr.dropWhile isspace
  let signed : Bool × List Char :=
    match s1 with
    | '-' :: r => (true, r)
    | '+' :: r => (false, r)
    | _ => (false, s1)
  let s2 := signed.2
  let based : Nat × List Char :=
    match s2 with
    | '0' :: x :: d :: r =>
      if (x = 'x' ∨ x = 'X') ∧ (digit_value d).any (fun v => decide (v < 16)) then (16, d :: r)
      else (8, s2)
    | '0' :: _ => (8, s2)
    | _ => (10, s2)
  let conv := take_digits based.1 based.2 0
  if conv.2.length = based.2.length then (0, nptr)
  else
    let v : Int := if signed.1 then -(conv.1 : Int) else (conv.1 : Int)
    (if v > LONG_MAX then LONG_MAX else if v < LONG_MIN then LONG_MIN else v, conv.2)

/-- The text `s.c_str()` shows: the characters before the first NUL. -/
def c_str (s : String) : List Char := s.toList.takeWhile (fun c => c ≠ '\x00')

/-- The function `parse_u8` of `main.cpp`; the exception is the text of the
`std::runtime_error`. The test `!end` never fires, `strtol` always sets `end`;
`*end != '\0'` says that text is left after the number. -/
def parse_u8 (s : String) : Except String Nat :=
  let r := strtol (c_str s)
  if r.2 ≠ [] ∨ r.1 < 0 ∨ r.1 > 0x7F then .error ("Invalid address value: " ++ s)
  else .ok (r.1.toNat % 256)

/-- One of the 16 symbols of the key map. -/
def IsKey (k : Char) : Prop := ∃ r < 4, ∃ c < 4, k = keymap r c

/-- The well-formedness of the debounce state against the output so far. -/
def WellFormed (st : ScanState) (cout : List String) : Prop :=
  (st.waiting_release = true ↔ st.last_key ≠ '\x00') ∧
  (st.waiting_release = true →
    IsKey st.last_key ∧ cout.getLast? = some (pressed_line st.last_key))

/-- Two bytes that agree on bits 4 to 7, the column nibble. -/
def SameCols (a b : Nat) : Prop := a &&& 0xF0 = b &&& 0xF0

/-! ## Bytes and column bits -/

theorem keymap_ne_zero : ∀ r < 4, ∀ c < 4, keymap r c ≠ '\x00' := by decide

set_option maxRecDepth 100000 in
theorem byte_idle_iff : ∀ b < 256, (b &&& 240 = 240 ↔ ∀ c < 4, b.testBit (4 + c) = true) := by
  decide

set_option maxRecDepth 100000 in
theorem detect_byte_idle : ∀ b < 256, ∀ r < 4, b &&& 240 = 240 → detect r b = '\x00' := by
  decide

set_option maxRecDepth 100000 in
theorem detect_byte_busy : ∀ b < 256, ∀ r < 4, b &&& 240 ≠ 240 → detect r b ≠ '\x00' := by
  decide

set_option synthInstance.maxSize 4000 in
set_option maxRecDepth 100000 in
theorem detect_byte_col : ∀ b < 256, ∀ r < 4,
    (b.testBit 4 = false → detect r b = keymap r 0) ∧
    (b.testBit 5 = false → b.testBit 4 = true → detect r b = keymap r 1) ∧
    (b.testBit 6 = false → b.testBit 4 = true → b.testBit 5 = true → detect r b = keymap r 2) ∧
    (b.testBit 7 = false → b.testBit 4 = true → b.testBit 5 = true → b.testBit 6 = true →
      detect r b = keymap r 3) := by
  decide

theorem mod_and_cols (g : Nat) : g % 256 &&& 240 = g &&& 240 := by
  have h := Nat.and_pow_two_sub_one_eq_mod g 8
  norm_num at h
  rw [← h, Nat.and_assoc]
  rfl

theorem testBit_byte (g c : Nat) (hc : c < 4) : (g % 256).testBit (4 + c) = g.testBit (4 + c) := by
  have h := Nat.testBit_mod_two_pow g 8 (4 + c)
  norm_num at h
  rw [h]
  simp
  intro h2
  omega

theorem detect_mod (r g : Nat) : detect r (g % 256) = detect r g := by
  simp [detect]

theorem detect_idle (r g : Nat) (hr : r < 4) (hg : g &&& 240 = 240) : detect r g = '\x00' := by
  rw [← detect_mod]
  exact detect_byte_idle (g % 256) (Nat.mod_lt _ (by norm_num)) r hr (by rw [mod_and_cols]; exact hg)

theorem detect_busy (r g : Nat) (hr : r < 4) (hg : g &&& 240 ≠ 240) : detect r g ≠ '\x00' := by
  rw [← detect_mod]
  exact detect_byte_busy (g % 256) (Nat.mod_lt _ (by norm_num)) r hr (by rw [mod_and_cols]; exact hg)

theorem idle_iff (g : Nat) : g &&& 240 = 240 ↔ ∀ c < 4, g.testBit (4 + c) = true := by
  rw [← mod_and_cols, byte_idle_iff (g % 256) (Nat.mod_lt _ (by norm_num))]
  constructor
  · intro h c hc
    rw [← testBit_byte g c hc]
    exact h c hc
  · intro h c hc
    rw [testBit_byte g c hc]
    exact h c hc

theorem detect_col (r c g : Nat) (hr : r < 4) (hc : c < 4) (h0 : g.testBit (4 + c) = false)
    (hlow : ∀ d < c, g.testBit (4 + d) = true) : detect r g = keymap r c := by
  rw [← detect_mod]
  have hb := detect_byte_col (g % 256) (Nat.mod_lt _ (by norm_num)) r hr
  have t : ∀ d < 4, (g % 256).testBit (4 + d) = g.testBit (4 + d) := fun d hd => testBit_byte g d hd
  have t0 := t 0 (by norm_num)
  have t1 := t 1 (by norm_num)
  have t2 := t 2 (by norm_num)
  have t3 := t 3 (by norm_num)
  norm_num at t0 t1 t2 t3
  rw [t0, t1, t2, t3] at hb
  interval_cases c
  · exact hb.1 h0
  · exact hb.2.1 h0 (hlow 0 (by norm_num))
  · exact hb.2.2.1 h0 (hlow 0 (by norm_num)) (hlow 1 (by norm_num))
  · exact hb.2.2.2 h0 (hlow 0 (by norm_num)) (hlow 1 (by norm_num)) (hlow 2 (by norm_num))

/-! ## The row loop on a scripted bus -/

theorem row_loop_found {σ : Type} (E : Env σ) (h : MCP23017) (n : Nat) (found : Char)
    (w : World σ) (hf : found ≠ '\x00') : row_loop E h n found w = (.ok found, w) := by
  cases n <;> simp [row_loop, hf]

theorem row_loop_zero {σ : Type} (E : Env σ) (h : MCP23017) (found : Char) (w : World σ) :
    row_loop E h 0 found w = (.ok found, w) := rfl

theorem row_loop_script (h : MCP23017) (hfd : 0 ≤ h.fd_) (n g : Nat) (gs : List Nat)
    (tr : List BusOp) (co : List String) :
    row_loop scriptEnv h (n + 1) '\x00' ⟨g :: gs, tr, co⟩ =
      row_loop scriptEnv h n (detect (4 - (n + 1)) g)
        ⟨gs, tr ++ strobe_ops h.fd_ (4 - (n + 1)), co⟩ := by
  have hn : ¬ h.fd_ < 0 := not_lt.mpr hfd
  simp [row_loop, write_olata, read_gpioA, write_reg, read_reg, ensure_open, hn, scriptEnv,
    detect, strobe_ops]

theorem scan_pass_script (h : MCP23017) (hfd : 0 ≤ h.fd_) (g0 g1 g2 g3 : Nat) (rest : List Nat)
    (tr : List BusOp) (co : List String) :
    (scan_pass scriptEnv h ⟨g0 :: g1 :: g2 :: g3 :: rest, tr, co⟩).1 =
      .ok (if detect 0 g0 ≠ '\x00' then detect 0 g0
        else if detect 1 g1 ≠ '\x00' then detect 1 g1
        else if detect 2 g2 ≠ '\x00' then detect 2 g2
        else detect 3 g3) ∧
    (scan_pass scriptEnv h ⟨g0 :: g1 :: g2 :: g3 :: rest, tr, co⟩).2.env =
      (if detect 0 g0 ≠ '\x00' then g1 :: g2 :: g3 :: rest
        else if detect 1 g1 ≠ '\x00' then g2 :: g3 :: rest
        else if detect 2 g2 ≠ '\x00' then g3 :: rest
        else rest) := by
  have hn : ¬ h.fd_ < 0 := not_lt.mpr hfd
  have hw : ∀ (v : Nat) (w : World (List Nat)), write_olata scriptEnv h v w =
      (.ok (), { w with trace := w.trace ++ [BusOp.sysWrite h.fd_ [REG_OLATA, v]] }) := by
    intro v w
    simp [write_olata, write_reg, ensure_open, hn, scriptEnv]
  by_cases h0 : detect 0 g0 = '\x00'
  · by_cases h1 : detect 1 g1 = '\x00'
    · by_cases h2 : detect 2 g2 = '\x00'
      · simp [scan_pass, row_loop_script h hfd, h0, h1, h2, row_loop_zero, hw]
      · simp [scan_pass, row_loop_script h hfd, h0, h1, h2, row_loop_found _ _ _ _ _ h2, hw]
    · simp [scan_pass, row_loop_script h hfd, h0, h1, row_loop_found _ _ _ _ _ h1, hw]
  · simp [scan_pass, row_loop_script h hfd, h0, row_loop_found _ _ _ _ _ h0, hw]

/-! ## What the driver leaves alone -/

theorem write_reg_cout {σ : Type} (E : Env σ) (h : MCP23017) (reg v : Nat) (w : World σ) :
    (write_reg E h reg v w).2.cout = w.cout := by
  unfold write_reg
  split
  · rfl
  · dsimp only
    split <;> rfl

theorem read_reg_cout {σ : Type} (E : Env σ) (h : MCP23017) (reg : Nat) (w : World σ) :
    (read_reg E h reg w).2.cout = w.cout := by
  unfold read_reg
  split
  · rfl
  · dsimp only
    split
    · rfl
    · split <;> rfl

theorem row_loop_cout {σ : Type} (E : Env σ) (h : MCP23017) (n : Nat) :
    ∀ (found : Char) (w : World σ), (row_loop E h n found w).2.cout = w.cout := by
  induction n with
  | zero => intro found w; rfl
  | succ n ih =>
    intro found w
    unfold row_loop
    split
    · rfl
    · dsimp only
      split
      · next e w1 hw =>
        have := write_reg_cout E h REG_OLATA (row_out (4 - (n + 1))) w
        unfold write_olata at hw
        rw [hw] at this
        exact this
      · next w1 hw =>
        have h1 := write_reg_cout E h REG_OLATA (row_out (4 - (n + 1))) w
        unfold write_olata at hw
        rw [hw] at h1
        split
        · next e w3 hr =>
          have h3 := read_reg_cout E h REG_GPIOA { w1 with env := E.sleep w1.env 300 }
          unfold read_gpioA at hr
          rw [hr] at h3
          exact Eq.trans h3 h1
        · next g w3 hr =>
          have h3 := read_reg_cout E h REG_GPIOA { w1 with env := E.sleep w1.env 300 }
          unfold read_gpioA at hr
          rw [hr] at h3
          rw [ih]
          exact Eq.trans h3 h1

theorem scan_pass_cout {σ : Type} (E : Env σ) (h : MCP23017) (w : World σ) :
    (scan_pass E h w).2.cout = w.cout := by
  unfold scan_pass
  have hl := row_loop_cout E h 4 '\x00' w
  split
  · next e w1 hw => rw [hw] at hl; exact hl
  · next found w1 hw =>
    rw [hw] at hl
    have h2 := write_reg_cout E h REG_OLATA rows_idle w1
    unfold write_olata
    split
    · next e w2 hw2 => rw [hw2] at h2; exact Eq.trans h2 hl
    · next w2 hw2 => rw [hw2] at h2; exact Eq.trans h2 hl

/-! ## The scan on the simulated keypad -/

theorem scan_pass_sim_key (r c : Nat) (hr : r < 4) (hc : c < 4)
    (keys : Nat → Option (Nat × Nat)) (stopAfter : Nat) (h : MCP23017) (hfd : 0 ≤ h.fd_)
    (w : World SimChip) (hk : keys w.env.turns = some (r, c)) :
    (scan_pass (simEnv keys stopAfter) h w).1 = .ok (keymap r c) ∧
      (scan_pass (simEnv keys stopAfter) h w).2.env =
        { ptr := REG_GPIOA, olat := rows_idle, turns := w.env.turns } := by
  have hn : ¬ h.fd_ < 0 := not_lt.mpr hfd
  interval_cases r <;> interval_cases c <;>
    simp +decide [scan_pass, row_loop, write_olata, read_gpioA, write_reg, read_reg, ensure_open,
      hn, simEnv, simCols, hk, REG_OLATA, REG_GPIOA, row_out, rows_idle, ROW_MASK, COL_MASK,
      col_loop, col_bit, keymap, keymapTable]

theorem scan_pass_sim_none
    (keys : Nat → Option (Nat × Nat)) (stopAfter : Nat) (h : MCP23017) (hfd : 0 ≤ h.fd_)
    (w : World SimChip) (hk : keys w.env.turns = none) :
    (scan_pass (simEnv keys stopAfter) h w).1 = .ok '\x00' ∧
      (scan_pass (simEnv keys stopAfter) h w).2.env =
        { ptr := REG_GPIOA, olat := rows_idle, turns := w.env.turns } := by
  have hn : ¬ h.fd_ < 0 := not_lt.mpr hfd
  simp +decide [scan_pass, row_loop, write_olata, read_gpioA, write_reg, read_reg, ensure_open,
      hn, simEnv, simCols, hk, REG_OLATA, REG_GPIOA, row_out, rows_idle, ROW_MASK, COL_MASK,
      col_loop, col_bit, keymap, keymapTable]

/-! ## Claims about one scan pass -/

/-- C1: on the simulated keypad with key `(r, c)` held (column `c` reads low
exactly while row `r` is the one row driven low, every other row reads the idle
nibble `0xF0`), one scan pass reports `keymap r c`, which is a key and not the
`'\0'` that stands for no key. -/
theorem scan_one_row (r c : Nat) (hr : r < 4) (hc : c < 4)
    (keys : Nat → Option (Nat × Nat)) (stopAfter : Nat) (h : MCP23017) (hfd : 0 ≤ h.fd_)
    (w : World SimChip) (hk : keys w.env.turns = some (r, c)) :
    (scan_pass (simEnv keys stopAfter) h w).1 = .ok (keymap r c) ∧ keymap r c ≠ '\x00' :=
  ⟨(scan_pass_sim_key r c hr hc keys stopAfter h hfd w hk).1, keymap_ne_zero r hr c hc⟩

theorem scan_one_row_witness :
    (scan_pass (simEnv (fun _ => some (2, 1)) 6) openHandle (World.init {})).1 = .ok '8' ∧
      keymap 2 1 ≠ '\x00' :=
  scan_one_row 2 1 (by decide) (by decide) (fun _ => some (2, 1)) 6 openHandle (by decide)
    (World.init {}) rfl

/-- C4: first match wins. On a bus whose reads return the bytes `gs` one after
the other: if row `r` is the lowest row whose read has a column bit low (all
rows before it read the idle nibble `0xF0`) and `c` is the lowest column whose
bit `4 + c` is `0` in that read, the scan pass reports `keymap r c` and has
consumed exactly `r + 1` reads, so the rows after `r` were not scanned; and the
pass reports no key exactly when all four reads have the column nibble `0xF0`. -/
theorem first_match_wins (h : MCP23017) (hfd : 0 ≤ h.fd_) (gs rest : List Nat)
    (hlen : gs.length = 4) (tr : List BusOp) (co : List String) :
    (∀ r < 4, ∀ c < 4,
      (∀ i < r, gs.getD i 0 &&& 0xF0 = 0xF0) →
      (gs.getD r 0).testBit (4 + c) = false →
      (∀ d < c, (gs.getD r 0).testBit (4 + d) = true) →
      (scan_pass scriptEnv h ⟨gs ++ rest, tr, co⟩).1 = .ok (keymap r c) ∧
        (scan_pass scriptEnv h ⟨gs ++ rest, tr, co⟩).2.env = gs.drop (r + 1) ++ rest) ∧
    ((scan_pass scriptEnv h ⟨gs ++ rest, tr, co⟩).1 = .ok '\x00' ↔
      ∀ i < 4, gs.getD i 0 &&& 0xF0 = 0xF0) := by
  obtain _ | ⟨g0, _ | ⟨g1, _ | ⟨g2, _ | ⟨g3, _ | ⟨g4, t⟩⟩⟩⟩⟩ := gs <;> simp at hlen
  obtain ⟨hres, henv⟩ := scan_pass_script h hfd g0 g1 g2 g3 rest tr co
  simp only [List.cons_append, List.nil_append]
  rw [hres, henv]
  constructor
  · intro r hr c hc hbefore hbit hlow
    have hd := detect_col r c _ hr hc hbit hlow
    have hk := keymap_ne_zero r hr c hc
    interval_cases r
    · simp only [List.getD_cons_zero] at hd
      simp [hd, hk]
    · have i0 := detect_idle 0 g0 (by norm_num) (hbefore 0 (by norm_num))
      simp only [List.getD_cons_succ, List.getD_cons_zero] at hd
      simp [i0, hd, hk]
    · have i0 := detect_idle 0 g0 (by norm_num) (hbefore 0 (by norm_num))
      have i1 := detect_idle 1 g1 (by norm_num) (hbefore 1 (by norm_num))
      simp only [List.getD_cons_succ, List.getD_cons_zero] at hd
      simp [i0, i1, hd, hk]
    · have i0 := detect_idle 0 g0 (by norm_num) (hbefore 0 (by norm_num))
      have i1 := detect_idle 1 g1 (by norm_num) (hbefore 1 (by norm_num))
      have i2 := detect_idle 2 g2 (by norm_num) (hbefore 2 (by norm_num))
      simp only [List.getD_cons_succ, List.getD_cons_zero] at hd
      simp [i0, i1, i2, hd, hk]
  · constructor
    · intro hz
      have hz' := Except.ok.inj hz
      by_cases h0 : g0 &&& 240 = 240
      · by_cases h1 : g1 &&& 240 = 240
        · by_cases h2 : g2 &&& 240 = 240
          · by_cases h3 : g3 &&& 240 = 240
            · intro i hi
              interval_cases i <;> simpa
            · exfalso
              have := detect_busy 3 g3 (by norm_num) h3
              simp [detect_idle 0 g0 (by norm_num) h0, detect_idle 1 g1 (by norm_num) h1,
                detect_idle 2 g2 (by norm_num) h2, this] at hz'
          · exfalso
            have := detect_busy 2 g2 (by norm_num) h2
            simp [detect_idle 0 g0 (by norm_num) h0, detect_idle 1 g1 (by norm_num) h1,
              this] at hz'
        · exfalso
          have := detect_busy 1 g1 (by norm_num) h1
          simp [detect_idle 0 g0 (by norm_num) h0, this] at hz'
      · exfalso
        have := detect_busy 0 g0 (by norm_num) h0
        simp [this] at hz'
    · intro hall
      have h0 := hall 0 (by norm_num)
      have h1 := hall 1 (by norm_num)
      have h2 := hall 2 (by norm_num)
      have h3 := hall 3 (by norm_num)
      simp at h0 h1 h2 h3
      simp [detect_idle 0 g0 (by norm_num) h0, detect_idle 1 g1 (by norm_num) h1,
        detect_idle 2 g2 (by norm_num) h2, detect_idle 3 g3 (by norm_num) h3]

theorem first_match_wins_witness :
    (scan_pass scriptEnv openHandle ⟨[0xF0, 0xA0, 0x70, 0xF0] ++ [], [], []⟩).1 = .ok '4' ∧
      (scan_pass scriptEnv openHandle ⟨[0xF0, 0xA0, 0x70, 0xF0] ++ [], [], []⟩).2.env =
        [0x70, 0xF0] :=
  (first_match_wins openHandle (by decide) [0xF0, 0xA0, 0x70, 0xF0] [] rfl [] []).1
    1 (by decide) 0 (by decide) (by decide) (by decide) (by decide)

/-! ## One turn of the debounce state machine -/

theorem loop_body_idle_confirm {σ : Type} (E : Env σ) (h : MCP23017) (poll_ms : Nat)
    (st : ScanState) (w w1 w3 : World σ) (K confirm : Char)
    (hidle : st.waiting_release = false) (hK : K ≠ '\x00')
    (hscan : scan_pass E h w = (.ok K, w1))
    (hconf : scan_pass E h { w1 with env := E.sleep w1.env 20000 } = (.ok confirm, w3)) :
    loop_body E h poll_ms st w =
      if confirm = K then
        (.ok (), { last_key := K, waiting_release := true },
          { env := E.sleep w3.env (poll_ms * 1000), trace := w3.trace,
            cout := w3.cout ++ [pressed_line K] })
      else (.ok (), st, { w3 with env := E.sleep w3.env (poll_ms * 1000) }) := by
  simp [loop_body, hscan, hidle, hK, hconf]

theorem loop_body_pressed_release {σ : Type} (E : Env σ) (h : MCP23017) (poll_ms : Nat)
    (st : ScanState) (w w1 w3 : World σ) (again : Char)
    (hpressed : st.waiting_release = true)
    (hscan : scan_pass E h w = (.ok '\x00', w1))
    (hrel : scan_pass E h { w1 with env := E.sleep w1.env 30000 } = (.ok again, w3)) :
    loop_body E h poll_ms st w =
      if again = '\x00' then
        (.ok (), { last_key := '\x00', waiting_release := false },
          { w3 with env := E.sleep w3.env (poll_ms * 1000) })
      else (.ok (), st, { w3 with env := E.sleep w3.env (poll_ms * 1000) }) := by
  simp [loop_body, hscan, hpressed, hrel]

theorem loop_body_pressed_found {σ : Type} (E : Env σ) (h : MCP23017) (poll_ms : Nat)
    (st : ScanState) (w w1 : World σ) (found : Char)
    (hpressed : st.waiting_release = true) (hf : found ≠ '\x00')
    (hscan : scan_pass E h w = (.ok found, w1)) :
    loop_body E h poll_ms st w =
      (.ok (), st, { w1 with env := E.sleep w1.env (poll_ms * 1000) }) := by
  simp [loop_body, hscan, hpressed, hf]

theorem scan_pass_cout_of_eq {σ : Type} (E : Env σ) (h : MCP23017) (w w1 : World σ)
    (r : Except Err Char) (hs : scan_pass E h w = (r, w1)) : w1.cout = w.cout := by
  have := scan_pass_cout E h w
  rw [hs] at this
  exact this

/-- C2: debounce accept. From Idle (`waiting_release = false`), a turn whose
initial scan detects the key `K` and whose confirmation sub-scan, made after the
20 ms sleep, detects `confirm`: if `confirm = K` the turn ends in `Pressed(K)`
(`last_key = K`, `waiting_release = true`) and has printed exactly the one line
`Pressed: K`; if `confirm` is another key or `'\0'` (no key) the state is
unchanged and nothing has been printed. No exception is thrown either way. -/
theorem debounce_accept {σ : Type} (E : Env σ) (h : MCP23017) (poll_ms : Nat)
    (st : ScanState) (w w1 w3 : World σ) (K confirm : Char)
    (hidle : st.waiting_release = false) (hK : K ≠ '\x00')
    (hscan : scan_pass E h w = (.ok K, w1))
    (hconf : scan_pass E h { w1 with env := E.sleep w1.env 20000 } = (.ok confirm, w3)) :
    (loop_body E h poll_ms st w).1 = .ok () ∧
    (loop_body E h poll_ms st w).2.1 =
      (if confirm = K then { last_key := K, waiting_release := true } else st) ∧
    (loop_body E h poll_ms st w).2.2.cout =
      (if confirm = K then w.cout ++ [pressed_line K] else w.cout) := by
  have hc1 := scan_pass_cout_of_eq E h _ _ _ hscan
  have hc3 := scan_pass_cout_of_eq E h _ _ _ hconf
  rw [loop_body_idle_confirm E h poll_ms st w w1 w3 K confirm hidle hK hscan hconf]
  by_cases hck : confirm = K
  · simp [hck]
    rw [hc3]
    exact hc1
  · simp [hck]
    rw [hc3]
    exact hc1

theorem debounce_accept_witness :
    ((loop_body (simEnv (fun _ => some (2, 1)) 6) openHandle 5 {} (World.init {})).1 = .ok () ∧
     (loop_body (simEnv (fun _ => some (2, 1)) 6) openHandle 5 {} (World.init {})).2.1 =
       { last_key := '8', waiting_release := true } ∧
     (loop_body (simEnv (fun _ => some (2, 1)) 6) openHandle 5 {} (World.init {})).2.2.cout =
       ["Pressed: 8\n"]) ∧
    ((loop_body scriptEnv openHandle 5 {} (World.init [0xE0, 0xF0, 0xF0, 0xF0, 0xF0])).1 = .ok () ∧
     (loop_body scriptEnv openHandle 5 {} (World.init [0xE0, 0xF0, 0xF0, 0xF0, 0xF0])).2.1 = {} ∧
     (loop_body scriptEnv openHandle 5 {} (World.init [0xE0, 0xF0, 0xF0, 0xF0, 0xF0])).2.2.cout =
       []) :=
  ⟨debounce_accept (simEnv (fun _ => some (2, 1)) 6) openHandle 5 {} (World.init {})
      (scan_pass (simEnv (fun _ => some (2, 1)) 6) openHandle (World.init {})).2
      (scan_pass (simEnv (fun _ => some (2, 1)) 6) openHandle
        (scan_pass (simEnv (fun _ => some (2, 1)) 6) openHandle (World.init {})).2).2
      '8' '8' rfl (by decide) rfl rfl,
   debounce_accept scriptEnv openHandle 5 {} (World.init [0xE0, 0xF0, 0xF0, 0xF0, 0xF0])
      (scan_pass scriptEnv openHandle (World.init [0xE0, 0xF0, 0xF0, 0xF0, 0xF0])).2
      (scan_pass scriptEnv openHandle
        (scan_pass scriptEnv openHandle (World.init [0xE0, 0xF0, 0xF0, 0xF0, 0xF0])).2).2
      '1' '\x00' rfl (by decide) rfl rfl⟩

/-- C5: from `Pressed(K)` (`waiting_release = true`), a turn whose initial scan
detects any key changes nothing: the state is the same (so `last_key` is still
`K`), nothing is printed, and the bus trace ends where the initial scan ended,
so no confirmation or release sub-scan was made. -/
theorem pressed_key_noop {σ : Type} (E : Env σ) (h : MCP23017) (poll_ms : Nat)
    (st : ScanState) (w w1 : World σ) (found : Char)
    (hpressed : st.waiting_release = true) (hf : found ≠ '\x00')
    (hscan : scan_pass E h w = (.ok found, w1)) :
    (loop_body E h poll_ms st w).1 = .ok () ∧
    (loop_body E h poll_ms st w).2.1 = st ∧
    (loop_body E h poll_ms st w).2.2.cout = w.cout ∧
    (loop_body E h poll_ms st w).2.2.trace = w1.trace := by
  rw [loop_body_pressed_found E h poll_ms st w w1 found hpressed hf hscan]
  have hc1 : w1.cout = w.cout := scan_pass_cout_of_eq E h w w1 _ hscan
  exact ⟨rfl, rfl, hc1, rfl⟩

theorem pressed_key_noop_witness :
    (loop_body (simEnv (fun _ => some (0, 3)) 6) openHandle 5
        { last_key := '8', waiting_release := true } (World.init {})).1 = .ok () ∧
    (loop_body (simEnv (fun _ => some (0, 3)) 6) openHandle 5
        { last_key := '8', waiting_release := true } (World.init {})).2.1 =
      { last_key := '8', waiting_release := true } ∧
    (loop_body (simEnv (fun _ => some (0, 3)) 6) openHandle 5
        { last_key := '8', waiting_release := true } (World.init {})).2.2.cout = [] ∧
    (loop_body (simEnv (fun _ => some (0, 3)) 6) openHandle 5
        { last_key := '8', waiting_release := true } (World.init {})).2.2.trace =
      [BusOp.sysWrite 3 [0x14, 0x0E], BusOp.sysWrite 3 [0x12], BusOp.sysRead 3 1,
       BusOp.sysWrite 3 [0x14, 0x0F]] :=
  pressed_key_noop (simEnv (fun _ => some (0, 3)) 6) openHandle 5
    { last_key := '8', waiting_release := true } (World.init {})
    (scan_pass (simEnv (fun _ => some (0, 3)) 6) openHandle (World.init {})).2 'A'
    rfl (by decide) rfl

/-- C3 as amended: debounce release. From `Pressed(K)`, a turn whose initial
scan detects no key and whose release-confirmation sub-scan, made after the
30 ms sleep, detects no key either ends in Idle (`last_key = '\0'`,
`waiting_release = false`) without an exception, and prints nothing: the
release is a silent state change. -/
theorem debounce_release_silent {σ : Type} (E : Env σ) (h : MCP23017) (poll_ms : Nat)
    (st : ScanState) (w w1 w3 : World σ)
    (hpressed : st.waiting_release = true)
    (hscan : scan_pass E h w = (.ok '\x00', w1))
    (hrel : scan_pass E h { w1 with env := E.sleep w1.env 30000 } = (.ok '\x00', w3)) :
    (loop_body E h poll_ms st w).1 = .ok () ∧
    (loop_body E h poll_ms st w).2.1 = { last_key := '\x00', waiting_release := false } ∧
    (loop_body E h poll_ms st w).2.2.cout = w.cout := by
  have hc1 := scan_pass_cout_of_eq E h _ _ _ hscan
  have hc3 := scan_pass_cout_of_eq E h _ _ _ hrel
  rw [loop_body_pressed_release E h poll_ms st w w1 w3 '\x00' hpressed hscan hrel]
  simp
  rw [hc3]
  exact hc1

theorem debounce_release_silent_witness :
    (loop_body (simEnv (fun _ => none) 6) openHandle 5
        { last_key := '5', waiting_release := true } (World.init {})).1 = .ok () ∧
    (loop_body (simEnv (fun _ => none) 6) openHandle 5
        { last_key := '5', waiting_release := true } (World.init {})).2.1 =
      { last_key := '\x00', waiting_release := false } ∧
    (loop_body (simEnv (fun _ => none) 6) openHandle 5
        { last_key := '5', waiting_release := true } (World.init {})).2.2.cout = [] :=
  debounce_release_silent (simEnv (fun _ => none) 6) openHandle 5
    { last_key := '5', waiting_release := true } (World.init {})
    (scan_pass (simEnv (fun _ => none) 6) openHandle (World.init {})).2
    (scan_pass (simEnv (fun _ => none) 6) openHandle
      (scan_pass (simEnv (fun _ => none) 6) openHandle (World.init {})).2).2
    rfl rfl rfl

/-- C3 fails as stated: on the simulated keypad with no key held, the turn taken
from `Pressed('5')` finds no key in the initial scan and none in the
release-confirmation sub-scan and ends in Idle, but it has printed nothing, so
the number of events it emitted is zero and not one. -/
theorem debounce_release_no_event :
    (scan_pass (simEnv (fun _ => none) 6) openHandle (World.init {})).1 = .ok '\x00' ∧
    (scan_pass (simEnv (fun _ => none) 6) openHandle
      (scan_pass (simEnv (fun _ => none) 6) openHandle (World.init {})).2).1 = .ok '\x00' ∧
    (loop_body (simEnv (fun _ => none) 6) openHandle 5
        { last_key := '5', waiting_release := true } (World.init {})).2.1 =
      { last_key := '\x00', waiting_release := false } ∧
    (loop_body (simEnv (fun _ => none) 6) openHandle 5
        { last_key := '5', waiting_release := true } (World.init {})).2.2.cout = [] ∧
    (loop_body (simEnv (fun _ => none) 6) openHandle 5
        { last_key := '5', waiting_release := true } (World.init {})).2.2.cout.length ≠ 1 :=
  ⟨rfl, rfl, rfl, rfl, by decide⟩

/-! ## What one turn can do to the state and to the output -/

theorem loop_body_effect {σ : Type} (E : Env σ) (h : MCP23017) (poll_ms : Nat)
    (st : ScanState) (w : World σ) :
    TurnEffect st w.cout (loop_body E h poll_ms st w).2.1 (loop_body E h poll_ms st w).2.2.cout := by
  unfold loop_body
  split
  · next e w1 hs =>
    exact Or.inl ⟨rfl, scan_pass_cout_of_eq E h w w1 _ hs⟩
  · next found w1 hs =>
    have hc1 : w1.cout = w.cout := scan_pass_cout_of_eq E h w w1 _ hs
    split
    · next hidle =>
      split
      · next hf =>
        dsimp only
        split
        · next e w3 hs3 =>
          have hc3 := scan_pass_cout_of_eq E h _ w3 _ hs3
          exact Or.inl ⟨rfl, hc3.trans hc1⟩
        · next confirm w3 hs3 =>
          have hc3 : w3.cout = w1.cout := scan_pass_cout_of_eq E h _ w3 _ hs3 |>.trans rfl
          split
          · refine Or.inr (Or.inr ⟨found, hf, hidle, rfl, ?_⟩)
            show w3.cout ++ [pressed_line found] = w.cout ++ [pressed_line found]
            rw [hc3, hc1]
          · exact Or.inl ⟨rfl, hc3.trans hc1⟩
      · exact Or.inl ⟨rfl, hc1⟩
    · next hpressed =>
      have hp : st.waiting_release = true := by simpa using hpressed
      split
      · dsimp only
        split
        · next e w3 hs3 =>
          have hc3 := scan_pass_cout_of_eq E h _ w3 _ hs3
          exact Or.inl ⟨rfl, hc3.trans hc1⟩
        · next again w3 hs3 =>
          have hc3 : w3.cout = w1.cout := scan_pass_cout_of_eq E h _ w3 _ hs3 |>.trans rfl
          split
          · exact Or.inr (Or.inl ⟨hp, rfl, hc3.trans hc1⟩)
          · exact Or.inl ⟨rfl, hc3.trans hc1⟩
      · exact Or.inl ⟨rfl, hc1⟩

theorem loop_turn_effect {σ : Type} (E : Env σ) (h : MCP23017) (poll_ms : Nat) (c : Run σ) :
    TurnEffect c.st c.w.cout (loop_turn E h poll_ms c).st (loop_turn E h poll_ms c).w.cout := by
  unfold loop_turn
  split
  · dsimp only
    split
    · exact Or.inl ⟨rfl, rfl⟩
    · have hb := loop_body_effect E h poll_ms c.st { c.w with env := (E.stop c.w.env).1 }
      split
      · next e st1 w1 hl => rw [hl] at hb; exact hb
      · next st1 w1 hl => rw [hl] at hb; exact hb
  · exact Or.inl ⟨rfl, rfl⟩

theorem main_loop_effect {σ : Type} (E : Env σ) (h : MCP23017) (poll_ms : Nat) (c0 : Run σ)
    (n : Nat) :
    TurnEffect (main_loop E h poll_ms n c0).st (main_loop E h poll_ms n c0).w.cout
      (main_loop E h poll_ms (n + 1) c0).st (main_loop E h poll_ms (n + 1) c0).w.cout :=
  loop_turn_effect E h poll_ms (main_loop E h poll_ms n c0)

/-- A flag that is set at `a` and clear at `b ≥ a` is cleared at some step in between. -/
theorem flag_cleared_between (f : Nat → Bool) (a : Nat) :
    ∀ b, a ≤ b → f a = true → f b = false → ∃ k, a ≤ k ∧ k < b ∧ f k = true ∧ f (k + 1) = false := by
  intro b
  induction b with
  | zero =>
    intro hab ha hb
    have : a = 0 := Nat.le_zero.mp hab
    subst this
    rw [ha] at hb
    cases hb
  | succ b ih =>
    intro hab ha hb
    rcases Nat.eq_or_lt_of_le hab with heq | hlt
    · subst heq
      rw [ha] at hb
      cases hb
    · cases hfb : f b with
      | true => exact ⟨b, Nat.lt_succ_iff.mp hlt, Nat.lt_succ_self b, hfb, hb⟩
      | false =>
        obtain ⟨k, hak, hkb, hk1, hk2⟩ := ih (Nat.lt_succ_iff.mp hlt) ha hfb
        exact ⟨k, hak, Nat.lt_succ_of_lt hkb, hk1, hk2⟩


/-! ## A key held on the simulated keypad -/

theorem scan_pass_eq_of_fst {σ : Type} (E : Env σ) (h : MCP23017) (w : World σ) (k : Char)
    (hk : (scan_pass E h w).1 = .ok k) : scan_pass E h w = (.ok k, (scan_pass E h w).2) := by
  rw [← hk]

theorem loop_body_sim_press (r c : Nat) (hr : r < 4) (hc : c < 4)
    (keys : Nat → Option (Nat × Nat)) (stopAfter : Nat) (h : MCP23017) (hfd : 0 ≤ h.fd_)
    (poll_ms : Nat) (st : ScanState) (w : World SimChip)
    (hk : keys w.env.turns = some (r, c)) (hidle : st.waiting_release = false) :
    (loop_body (simEnv keys stopAfter) h poll_ms st w).1 = .ok () ∧
    (loop_body (simEnv keys stopAfter) h poll_ms st w).2.1 =
      { last_key := keymap r c, waiting_release := true } ∧
    (loop_body (simEnv keys stopAfter) h poll_ms st w).2.2.cout =
      w.cout ++ [pressed_line (keymap r c)] ∧
    (loop_body (simEnv keys stopAfter) h poll_ms st w).2.2.env.turns = w.env.turns := by
  have h1 := scan_pass_sim_key r c hr hc keys stopAfter h hfd w hk
  have e1 := scan_pass_eq_of_fst _ h w _ h1.1
  have hk2 : keys ({ (scan_pass (simEnv keys stopAfter) h w).2 with
      env := (simEnv keys stopAfter).sleep (scan_pass (simEnv keys stopAfter) h w).2.env 20000 } :
      World SimChip).env.turns = some (r, c) := by
    show keys (scan_pass (simEnv keys stopAfter) h w).2.env.turns = some (r, c)
    rw [h1.2]
    exact hk
  have h2 := scan_pass_sim_key r c hr hc keys stopAfter h hfd _ hk2
  have e2 := scan_pass_eq_of_fst _ h _ _ h2.1
  have hb := loop_body_idle_confirm (simEnv keys stopAfter) h poll_ms st w _ _ _ _ hidle
    (keymap_ne_zero r hr c hc) e1 e2
  rw [hb]
  rw [if_pos rfl]
  refine ⟨rfl, rfl, ?_, ?_⟩
  · show (scan_pass (simEnv keys stopAfter) h _).2.cout ++ _ = _
    rw [scan_pass_cout, ← scan_pass_cout (simEnv keys stopAfter) h w]
  · show (scan_pass (simEnv keys stopAfter) h _).2.env.turns = _
    rw [h2.2]
    show (scan_pass (simEnv keys stopAfter) h w).2.env.turns = _
    rw [h1.2]

theorem loop_body_sim_hold (r c : Nat) (hr : r < 4) (hc : c < 4)
    (keys : Nat → Option (Nat × Nat)) (stopAfter : Nat) (h : MCP23017) (hfd : 0 ≤ h.fd_)
    (poll_ms : Nat) (st : ScanState) (w : World SimChip)
    (hk : keys w.env.turns = some (r, c)) (hpressed : st.waiting_release = true) :
    (loop_body (simEnv keys stopAfter) h poll_ms st w).1 = .ok () ∧
    (loop_body (simEnv keys stopAfter) h poll_ms st w).2.1 = st ∧
    (loop_body (simEnv keys stopAfter) h poll_ms st w).2.2.cout = w.cout ∧
    (loop_body (simEnv keys stopAfter) h poll_ms st w).2.2.env.turns = w.env.turns := by
  have h1 := scan_pass_sim_key r c hr hc keys stopAfter h hfd w hk
  have e1 := scan_pass_eq_of_fst _ h w _ h1.1
  rw [loop_body_pressed_found (simEnv keys stopAfter) h poll_ms st w _ _ hpressed
    (keymap_ne_zero r hr c hc) e1]
  refine ⟨rfl, rfl, scan_pass_cout _ h w, ?_⟩
  show (scan_pass (simEnv keys stopAfter) h w).2.env.turns = _
  rw [h1.2]

theorem loop_turn_ok {σ : Type} (E : Env σ) (h : MCP23017) (poll_ms : Nat) (x : Run σ)
    (hrun : x.status = .running) (hgo : (E.stop x.w.env).2 = false)
    (hb : (loop_body E h poll_ms x.st { x.w with env := (E.stop x.w.env).1 }).1 = .ok ()) :
    loop_turn E h poll_ms x =
      { status := .running,
        st := (loop_body E h poll_ms x.st { x.w with env := (E.stop x.w.env).1 }).2.1,
        w := (loop_body E h poll_ms x.st { x.w with env := (E.stop x.w.env).1 }).2.2 } := by
  unfold loop_turn
  simp only [hrun, hgo, Bool.false_eq_true, if_false]
  dsimp only at hb ⊢
  generalize loop_body E h poll_ms x.st
    { env := (E.stop x.w.env).1, trace := x.w.trace, cout := x.w.cout } = res at hb ⊢
  obtain ⟨res1, st1, w1⟩ := res
  cases res1 with
  | error e => cases hb
  | ok u => rfl

theorem loop_turn_stop {σ : Type} (E : Env σ) (h : MCP23017) (poll_ms : Nat) (x : Run σ)
    (hrun : x.status = .running) (hstop : (E.stop x.w.env).2 = true) :
    loop_turn E h poll_ms x =
      { x with status := .stopped, w := { x.w with env := (E.stop x.w.env).1 } } := by
  unfold loop_turn
  simp [hrun, hstop]

theorem loop_turn_done {σ : Type} (E : Env σ) (h : MCP23017) (poll_ms : Nat) (x : Run σ)
    (hdone : x.status ≠ .running) : loop_turn E h poll_ms x = x := by
  unfold loop_turn
  split
  · next hrun => exact absurd hrun hdone
  · rfl

theorem loop_turn_sim_first (r c : Nat) (hr : r < 4) (hc : c < 4)
    (keys : Nat → Option (Nat × Nat)) (hheld : ∀ t, keys t = some (r, c)) (stopAfter : Nat)
    (h : MCP23017) (hfd : 0 ≤ h.fd_) (poll_ms : Nat) (w : World SimChip)
    (hgo : w.env.turns < stopAfter) :
    (loop_turn (simEnv keys stopAfter) h poll_ms (Run.init w)).status = .running ∧
    (loop_turn (simEnv keys stopAfter) h poll_ms (Run.init w)).st =
      { last_key := keymap r c, waiting_release := true } ∧
    (loop_turn (simEnv keys stopAfter) h poll_ms (Run.init w)).w.cout =
      w.cout ++ [pressed_line (keymap r c)] := by
  have hns : ¬ stopAfter ≤ w.env.turns := Nat.not_le.mpr hgo
  have hb := loop_body_sim_press r c hr hc keys stopAfter h hfd poll_ms {}
    { w with env := ((simEnv keys stopAfter).stop w.env).1 } (hheld _) rfl
  have hstop : ((simEnv keys stopAfter).stop (Run.init w).w.env).2 = false := by
    simp [simEnv, Run.init, hns]
  rw [loop_turn_ok _ h poll_ms (Run.init w) rfl hstop hb.1]
  exact ⟨rfl, hb.2.1, hb.2.2.1⟩

theorem loop_turn_sim_hold (r c : Nat) (hr : r < 4) (hc : c < 4)
    (keys : Nat → Option (Nat × Nat)) (hheld : ∀ t, keys t = some (r, c)) (stopAfter : Nat)
    (h : MCP23017) (hfd : 0 ≤ h.fd_) (poll_ms : Nat) (x : Run SimChip)
    (hst : x.status = .running ∨ x.status = .stopped) (hp : x.st.waiting_release = true) :
    ((loop_turn (simEnv keys stopAfter) h poll_ms x).status = .running ∨
      (loop_turn (simEnv keys stopAfter) h poll_ms x).status = .stopped) ∧
    (loop_turn (simEnv keys stopAfter) h poll_ms x).st = x.st ∧
    (loop_turn (simEnv keys stopAfter) h poll_ms x).w.cout = x.w.cout := by
  rcases hst with hrun | hstopped
  · have hb := loop_body_sim_hold r c hr hc keys stopAfter h hfd poll_ms x.st
      { x.w with env := ((simEnv keys stopAfter).stop x.w.env).1 } (hheld _) hp
    cases hs : ((simEnv keys stopAfter).stop x.w.env).2 with
    | false =>
      rw [loop_turn_ok _ h poll_ms x hrun hs hb.1]
      exact ⟨Or.inl rfl, hb.2.1, hb.2.2.1⟩
    | true =>
      rw [loop_turn_stop _ h poll_ms x hrun hs]
      exact ⟨Or.inr rfl, rfl, rfl⟩
  · rw [loop_turn_done _ h poll_ms x (by rw [hstopped]; decide)]
    exact ⟨Or.inr hstopped, rfl, rfl⟩

theorem main_loop_sim_held (r c : Nat) (hr : r < 4) (hc : c < 4)
    (keys : Nat → Option (Nat × Nat)) (hheld : ∀ t, keys t = some (r, c)) (stopAfter : Nat)
    (h : MCP23017) (hfd : 0 ≤ h.fd_) (poll_ms : Nat) (w : World SimChip)
    (hgo : w.env.turns < stopAfter) (n : Nat) :
    ((main_loop (simEnv keys stopAfter) h poll_ms (n + 1) (Run.init w)).status = .running ∨
      (main_loop (simEnv keys stopAfter) h poll_ms (n + 1) (Run.init w)).status = .stopped) ∧
    (main_loop (simEnv keys stopAfter) h poll_ms (n + 1) (Run.init w)).st =
      { last_key := keymap r c, waiting_release := true } ∧
    (main_loop (simEnv keys stopAfter) h poll_ms (n + 1) (Run.init w)).w.cout =
      w.cout ++ [pressed_line (keymap r c)] := by
  induction n with
  | zero =>
    have hf := loop_turn_sim_first r c hr hc keys hheld stopAfter h hfd poll_ms w hgo
    exact ⟨Or.inl hf.1, hf.2.1, hf.2.2⟩
  | succ n ih =>
    have hp : (main_loop (simEnv keys stopAfter) h poll_ms (n + 1)
        (Run.init w)).st.waiting_release = true := by rw [ih.2.1]
    have hs := loop_turn_sim_hold r c hr hc keys hheld stopAfter h hfd poll_ms _ ih.1 hp
    show (_ ∨ _) ∧ (loop_turn _ h poll_ms _).st = _ ∧ (loop_turn _ h poll_ms _).w.cout = _
    exact ⟨hs.1, hs.2.1.trans ih.2.1, hs.2.2.trans ih.2.2⟩

/-! ## Claims about the run of the loop -/

/-- C6: exactly-once press. Along any run of the scan loop, against any
environment: (1) a turn either prints nothing or prints exactly one line
`Pressed: K`, and then it began in Idle and ended in `Pressed(K)`; (2) between
two turns that print a press line there is a turn that began in a pressed state
and ended in Idle, which is what the confirmed release does; (3) on the
simulated keypad a key held from the start gives exactly one press line,
however many turns are run. -/
theorem exactly_once_press {σ : Type} (E : Env σ) (h : MCP23017) (poll_ms : Nat) (c0 : Run σ) :
    (∀ n, (main_loop E h poll_ms (n + 1) c0).w.cout = (main_loop E h poll_ms n c0).w.cout ∨
      ∃ K, K ≠ '\x00' ∧ (main_loop E h poll_ms n c0).st.waiting_release = false ∧
        (main_loop E h poll_ms (n + 1) c0).st = { last_key := K, waiting_release := true } ∧
        (main_loop E h poll_ms (n + 1) c0).w.cout =
          (main_loop E h poll_ms n c0).w.cout ++ [pressed_line K]) ∧
    (∀ i j, i < j →
      (main_loop E h poll_ms (i + 1) c0).w.cout ≠ (main_loop E h poll_ms i c0).w.cout →
      (main_loop E h poll_ms (j + 1) c0).w.cout ≠ (main_loop E h poll_ms j c0).w.cout →
      ∃ k, i < k ∧ k < j ∧ (main_loop E h poll_ms k c0).st.waiting_release = true ∧
        (main_loop E h poll_ms (k + 1) c0).st =
          { last_key := '\x00', waiting_release := false }) ∧
    (∀ r < 4, ∀ c < 4, ∀ (stopAfter n : Nat) (w : World SimChip),
      0 ≤ h.fd_ → w.env.turns < stopAfter →
      (main_loop (simEnv (fun _ => some (r, c)) stopAfter) h poll_ms (n + 1) (Run.init w)).w.cout =
        w.cout ++ [pressed_line (keymap r c)]) := by
  have step : ∀ n, (main_loop E h poll_ms (n + 1) c0).w.cout =
        (main_loop E h poll_ms n c0).w.cout ∨
      ∃ K, K ≠ '\x00' ∧ (main_loop E h poll_ms n c0).st.waiting_release = false ∧
        (main_loop E h poll_ms (n + 1) c0).st = { last_key := K, waiting_release := true } ∧
        (main_loop E h poll_ms (n + 1) c0).w.cout =
          (main_loop E h poll_ms n c0).w.cout ++ [pressed_line K] := by
    intro n
    rcases main_loop_effect E h poll_ms c0 n with ⟨_, hc⟩ | ⟨_, _, hc⟩ | ⟨K, hK, hi, hs, hc⟩
    · exact Or.inl hc
    · exact Or.inl hc
    · exact Or.inr ⟨K, hK, hi, hs, hc⟩
  refine ⟨step, ?_, ?_⟩
  · intro i j hij hpi hpj
    have hfi : (main_loop E h poll_ms (i + 1) c0).st.waiting_release = true := by
      rcases step i with hc | ⟨K, _, _, hs, _⟩
      · exact absurd hc hpi
      · rw [hs]
    have hfj : (main_loop E h poll_ms j c0).st.waiting_release = false := by
      rcases step j with hc | ⟨K, _, hi, _, _⟩
      · exact absurd hc hpj
      · exact hi
    obtain ⟨k, hik, hkj, hk1, hk2⟩ := flag_cleared_between
      (fun n => (main_loop E h poll_ms n c0).st.waiting_release) (i + 1) j hij hfi hfj
    refine ⟨k, hik, hkj, hk1, ?_⟩
    rcases main_loop_effect E h poll_ms c0 k with ⟨hs, _⟩ | ⟨_, hs, _⟩ | ⟨K, _, hi, _, _⟩
    · rw [hs, hk1] at hk2
      cases hk2
    · exact hs
    · rw [hk1] at hi
      cases hi
  · intro r hr c hc stopAfter n w hfd hgo
    exact (main_loop_sim_held r c hr hc (fun _ => some (r, c)) (fun _ => rfl) stopAfter h hfd
      poll_ms w hgo n).2.2

theorem exactly_once_press_witness :
    (∃ k, 0 < k ∧ k < 4 ∧
      (main_loop (simEnv twoPresses 9) openHandle 5 k
        (Run.init (World.init {}))).st.waiting_release = true ∧
      (main_loop (simEnv twoPresses 9) openHandle 5 (k + 1) (Run.init (World.init {}))).st =
        { last_key := '\x00', waiting_release := false }) ∧
    (main_loop (simEnv (fun _ => some (2, 1)) 9) openHandle 5 (7 + 1)
      (Run.init (World.init {}))).w.cout = [] ++ [pressed_line (keymap 2 1)] :=
  ⟨(exactly_once_press (simEnv twoPresses 9) openHandle 5 (Run.init (World.init {}))).2.1
      0 4 (by decide) (by decide) (by decide),
   (exactly_once_press (simEnv twoPresses 9) openHandle 5 (Run.init (World.init {}))).2.2
      2 (by decide) 1 (by decide) 9 7 (World.init {}) (by decide) (by decide)⟩

theorem main_loop_done {σ : Type} (E : Env σ) (h : MCP23017) (poll_ms n : Nat) (c0 : Run σ)
    (hdone : (main_loop E h poll_ms n c0).status ≠ .running) (k : Nat) :
    main_loop E h poll_ms (n + k) c0 = main_loop E h poll_ms n c0 := by
  induction k with
  | zero => rfl
  | succ k ih =>
    show loop_turn E h poll_ms (main_loop E h poll_ms (n + k) c0) = _
    rw [ih]
    exact loop_turn_done E h poll_ms _ hdone

theorem sim_sleep (keys : Nat → Option (Nat × Nat)) (stopAfter : Nat) (s : SimChip) (n : Nat) :
    (simEnv keys stopAfter).sleep s n = s := rfl

theorem loop_body_sim_poll (keys : Nat → Option (Nat × Nat)) (stopAfter : Nat) (h : MCP23017)
    (p : Nat) (st : ScanState) (w : World SimChip) :
    loop_body (simEnv keys stopAfter) h p st w = loop_body (simEnv keys stopAfter) h 0 st w := by
  simp only [loop_body, sim_sleep]

theorem main_loop_sim_poll (keys : Nat → Option (Nat × Nat)) (stopAfter : Nat) (h : MCP23017)
    (p n : Nat) (c0 : Run SimChip) :
    main_loop (simEnv keys stopAfter) h p n c0 = main_loop (simEnv keys stopAfter) h 0 n c0 := by
  induction n with
  | zero => rfl
  | succ n ih =>
    show loop_turn _ h p (main_loop _ h p n c0) = loop_turn _ h 0 (main_loop _ h 0 n c0)
    rw [ih]
    have hb : ∀ (st : ScanState) (w : World SimChip),
        loop_body (simEnv keys stopAfter) h p st w = loop_body (simEnv keys stopAfter) h 0 st w :=
      loop_body_sim_poll keys stopAfter h p
    unfold loop_turn
    simp only [hb]

/-- C7 as amended: end to end. With row 2 / column 1 held for three turns and
nothing held for the next three, after which `g_stop` is set, the loop started
in Idle stops without an exception having printed exactly the one line
`Pressed: 8`; the state is `Pressed('8')` after the third turn and Idle again
after the fourth, and the release prints nothing. This holds for every poll
interval and however many further evaluations of the loop condition the run is
given. -/
theorem end_to_end_output (poll_ms k : Nat) :
    (main_loop (simEnv scenarioKeys 6) openHandle poll_ms (7 + k)
      (Run.init (World.init {}))).status = .stopped ∧
    (main_loop (simEnv scenarioKeys 6) openHandle poll_ms (7 + k)
      (Run.init (World.init {}))).w.cout = ["Pressed: 8\n"] ∧
    (main_loop (simEnv scenarioKeys 6) openHandle poll_ms (7 + k)
      (Run.init (World.init {}))).st = { last_key := '\x00', waiting_release := false } ∧
    (main_loop (simEnv scenarioKeys 6) openHandle poll_ms 3
      (Run.init (World.init {}))).st = { last_key := '8', waiting_release := true } ∧
    (main_loop (simEnv scenarioKeys 6) openHandle poll_ms 4
      (Run.init (World.init {}))).st = { last_key := '\x00', waiting_release := false } := by
  have hs : (main_loop (simEnv scenarioKeys 6) openHandle 0 7
      (Run.init (World.init {}))).status = .stopped := rfl
  rw [main_loop_sim_poll _ _ _ poll_ms (7 + k), main_loop_sim_poll _ _ _ poll_ms 3,
    main_loop_sim_poll _ _ _ poll_ms 4, main_loop_done _ _ _ 7 _ (by rw [hs]; decide) k]
  exact ⟨rfl, rfl, rfl, rfl, rfl⟩

/-- C7 fails as stated: in the end-to-end scenario the run prints the press of
`8` and nothing else, so the emitted sequence has one event and not the two of
`[Press('8'), Release('8')]`. -/
theorem end_to_end_no_release :
    (main_loop (simEnv scenarioKeys 6) openHandle 5 7 (Run.init (World.init {}))).status =
      .stopped ∧
    (main_loop (simEnv scenarioKeys 6) openHandle 5 7 (Run.init (World.init {}))).w.cout =
      ["Pressed: 8\n"] ∧
    (main_loop (simEnv scenarioKeys 6) openHandle 5 7
      (Run.init (World.init {}))).w.cout.length ≠ 2 :=
  ⟨rfl, rfl, by decide⟩

/-! ## Claims about the driver -/

theorem ensure_open_ok (h : MCP23017) (hfd : 0 ≤ h.fd_) : ensure_open h = .ok () := by
  simp [ensure_open, not_lt.mpr hfd]

theorem write_reg_open {σ : Type} (E : Env σ) (h : MCP23017) (hfd : 0 ≤ h.fd_) (reg value : Nat)
    (w : World σ) :
    write_reg E h reg value w =
      (if (E.sysWrite w.env h.fd_ [reg, value]).2 ≠ 2 then
          .error (Err.sysErr "i2c write(reg,value)")
        else .ok (),
       { env := (E.sysWrite w.env h.fd_ [reg, value]).1,
         trace := w.trace ++ [BusOp.sysWrite h.fd_ [reg, value]],
         cout := w.cout }) := by
  unfold write_reg
  rw [ensure_open_ok h hfd]
  dsimp only
  split <;> rfl

/-- C8: on an open handle, with a transport whose writes all go through,
`configure_portA(iodir, gppu, ipol)` returns normally and adds to the bus trace
exactly three system calls, the two-byte writes `[0x00, iodir]`, `[0x0C, gppu]`
and `[0x02, ipol]`, in this order. -/
theorem configure_portA_three_writes {σ : Type} (E : Env σ) (h : MCP23017) (hfd : 0 ≤ h.fd_)
    (hgood : ∀ (s : σ) (fd : Int) (buf : List Nat), (E.sysWrite s fd buf).2 = buf.length)
    (iodir gppu ipol : Nat) (w : World σ) :
    (configure_portA E h iodir gppu w ipol).1 = .ok () ∧
    (configure_portA E h iodir gppu w ipol).2.trace =
      w.trace ++ [BusOp.sysWrite h.fd_ [0x00, iodir], BusOp.sysWrite h.fd_ [0x0C, gppu],
        BusOp.sysWrite h.fd_ [0x02, ipol]] := by
  have hw : ∀ (reg value : Nat) (w1 : World σ), write_reg E h reg value w1 =
      (.ok (), { env := (E.sysWrite w1.env h.fd_ [reg, value]).1,
                 trace := w1.trace ++ [BusOp.sysWrite h.fd_ [reg, value]],
                 cout := w1.cout }) := by
    intro reg value w1
    rw [write_reg_open E h hfd]
    simp [hgood]
  simp [configure_portA, hw, REG_IODIRA, REG_GPPUA, REG_IPOLA]

theorem configure_portA_three_writes_witness :
    (configure_portA scriptEnv openHandle 0xF0 0xF0 (World.init []) 0x00).1 = .ok () ∧
    (configure_portA scriptEnv openHandle 0xF0 0xF0 (World.init []) 0x00).2.trace =
      [] ++ [BusOp.sysWrite 3 [0x00, 0xF0], BusOp.sysWrite 3 [0x0C, 0xF0],
        BusOp.sysWrite 3 [0x02, 0x00]] :=
  configure_portA_three_writes scriptEnv openHandle (by decide) (fun _ _ _ => rfl)
    0xF0 0xF0 0x00 (World.init [])

/-- C9: on a handle whose `fd_` is negative, `read_reg` and `write_reg` throw
the not-open error and leave the world as it was: no system call is made, the
bus trace is unchanged. The handle the constructor makes is such a handle, and
so is every handle `close_bus` returns. -/
theorem closed_handle_not_open {σ : Type} (E : Env σ) (h : MCP23017) (hclosed : h.fd_ < 0)
    (reg value : Nat) (w : World σ) :
    read_reg E h reg w = (.error Err.notOpen, w) ∧
    write_reg E h reg value w = (.error Err.notOpen, w) ∧
    (∀ (dev : String) (addr : Nat), ({ dev_ := dev, addr_ := addr } : MCP23017).fd_ < 0) ∧
    (∀ (h0 : MCP23017) (w0 : World σ), (close_bus E h0 w0).1.fd_ < 0) := by
  refine ⟨?_, ?_, ?_, ?_⟩
  · simp [read_reg, ensure_open, hclosed]
  · simp [write_reg, ensure_open, hclosed]
  · intro dev addr
    show (-1 : Int) < 0
    decide
  · intro h0 w0
    unfold close_bus
    split
    · show (-1 : Int) < 0
      decide
    · next hneg => exact not_le.mp hneg

theorem closed_handle_not_open_witness :
    read_reg flakyEnv closedHandle 0x12 (World.init 5) = (.error Err.notOpen, World.init 5) ∧
    write_reg flakyEnv closedHandle 0x12 0x0F (World.init 5) =
      (.error Err.notOpen, World.init 5) ∧
    (∀ (dev : String) (addr : Nat), ({ dev_ := dev, addr_ := addr } : MCP23017).fd_ < 0) ∧
    (∀ (h0 : MCP23017) (w0 : World Nat), (close_bus flakyEnv h0 w0).1.fd_ < 0) :=
  closed_handle_not_open flakyEnv closedHandle (by decide) 0x12 0x0F (World.init 5)

theorem read_reg_open {σ : Type} (E : Env σ) (h : MCP23017) (hfd : 0 ≤ h.fd_) (reg : Nat)
    (w : World σ) :
    read_reg E h reg w =
      if (E.sysWrite w.env h.fd_ [reg]).2 ≠ 1 then
        (.error (Err.sysErr "i2c write(reg)"),
         { env := (E.sysWrite w.env h.fd_ [reg]).1,
           trace := w.trace ++ [BusOp.sysWrite h.fd_ [reg]], cout := w.cout })
      else
        (if (E.sysRead (E.sysWrite w.env h.fd_ [reg]).1 h.fd_).2.1 ≠ 1 then
            .error (Err.sysErr "i2c read(data)")
          else .ok ((E.sysRead (E.sysWrite w.env h.fd_ [reg]).1 h.fd_).2.2 % 256),
         { env := (E.sysRead (E.sysWrite w.env h.fd_ [reg]).1 h.fd_).1,
           trace := w.trace ++ [BusOp.sysWrite h.fd_ [reg]] ++ [BusOp.sysRead h.fd_ 1],
           cout := w.cout }) := by
  unfold read_reg
  rw [ensure_open_ok h hfd]
  dsimp only
  split
  · rfl
  · split <;> rfl

/-- C10: no retries, immediate failure. On an open handle, whatever the
transport does: `write_reg` makes exactly one write and throws iff that write
did not return 2; `read_reg` makes the address write, throws without a read if
it did not return 1, and otherwise makes exactly one read and throws iff it did
not return 1; `configure_portA` makes the IODIR write, then the GPPU write only
if IODIR's returned 2, then the IPOL write only if GPPU's returned 2, and throws
at the first that did not. No system call appears twice. -/
theorem no_retry_immediate_failure {σ : Type} (E : Env σ) (h : MCP23017) (hfd : 0 ≤ h.fd_)
    (reg value iodir gppu ipol : Nat) (w : World σ) :
    ((write_reg E h reg value w).1 =
        (if (E.sysWrite w.env h.fd_ [reg, value]).2 ≠ 2 then
          .error (Err.sysErr "i2c write(reg,value)") else .ok ()) ∧
      (write_reg E h reg value w).2.trace = w.trace ++ [BusOp.sysWrite h.fd_ [reg, value]]) ∧
    ((read_reg E h reg w).1 =
        (if (E.sysWrite w.env h.fd_ [reg]).2 ≠ 1 then .error (Err.sysErr "i2c write(reg)")
         else if (E.sysRead (E.sysWrite w.env h.fd_ [reg]).1 h.fd_).2.1 ≠ 1 then
           .error (Err.sysErr "i2c read(data)")
         else .ok ((E.sysRead (E.sysWrite w.env h.fd_ [reg]).1 h.fd_).2.2 % 256)) ∧
      (read_reg E h reg w).2.trace =
        (if (E.sysWrite w.env h.fd_ [reg]).2 ≠ 1 then w.trace ++ [BusOp.sysWrite h.fd_ [reg]]
         else w.trace ++ [BusOp.sysWrite h.fd_ [reg], BusOp.sysRead h.fd_ 1])) ∧
    ((configure_portA E h iodir gppu w ipol).1 =
        (if (E.sysWrite w.env h.fd_ [0x00, iodir]).2 ≠ 2 then
           .error (Err.sysErr "i2c write(reg,value)")
         else if (E.sysWrite (E.sysWrite w.env h.fd_ [0x00, iodir]).1 h.fd_ [0x0C, gppu]).2 ≠ 2
           then .error (Err.sysErr "i2c write(reg,value)")
         else if (E.sysWrite (E.sysWrite (E.sysWrite w.env h.fd_ [0x00, iodir]).1 h.fd_
             [0x0C, gppu]).1 h.fd_ [0x02, ipol]).2 ≠ 2
           then .error (Err.sysErr "i2c write(reg,value)")
         else .ok ()) ∧
      (configure_portA E h iodir gppu w ipol).2.trace =
        (if (E.sysWrite w.env h.fd_ [0x00, iodir]).2 ≠ 2 then
           w.trace ++ [BusOp.sysWrite h.fd_ [0x00, iodir]]
         else if (E.sysWrite (E.sysWrite w.env h.fd_ [0x00, iodir]).1 h.fd_ [0x0C, gppu]).2 ≠ 2
           then w.trace ++ [BusOp.sysWrite h.fd_ [0x00, iodir], BusOp.sysWrite h.fd_ [0x0C, gppu]]
         else w.trace ++ [BusOp.sysWrite h.fd_ [0x00, iodir], BusOp.sysWrite h.fd_ [0x0C, gppu],
           BusOp.sysWrite h.fd_ [0x02, ipol]])) := by
  refine ⟨?_, ?_, ?_⟩
  · rw [write_reg_open E h hfd]
    exact ⟨rfl, rfl⟩
  · rw [read_reg_open E h hfd]
    split
    · exact ⟨rfl, by simp⟩
    · exact ⟨rfl, by simp⟩
  · unfold configure_portA
    simp only [write_reg_open E h hfd, REG_IODIRA, REG_GPPUA, REG_IPOLA]
    by_cases h1 : (E.sysWrite w.env h.fd_ [0x00, iodir]).2 = 2
    · by_cases h2 : (E.sysWrite (E.sysWrite w.env h.fd_ [0x00, iodir]).1 h.fd_ [0x0C, gppu]).2 = 2
      · simp [h1, h2]
      · simp [h1, h2]
    · simp [h1]

theorem no_retry_immediate_failure_witness :
    ((write_reg flakyEnv openHandle 0x14 0x0F (World.init 0)).1 =
        .error (Err.sysErr "i2c write(reg,value)") ∧
      (write_reg flakyEnv openHandle 0x14 0x0F (World.init 0)).2.trace =
        [BusOp.sysWrite 3 [0x14, 0x0F]]) ∧
    ((read_reg flakyEnv openHandle 0x12 (World.init 0)).1 =
        .error (Err.sysErr "i2c write(reg)") ∧
      (read_reg flakyEnv openHandle 0x12 (World.init 0)).2.trace = [BusOp.sysWrite 3 [0x12]]) ∧
    ((read_reg flakyEnv openHandle 0x12 (World.init 1)).1 =
        .error (Err.sysErr "i2c read(data)") ∧
      (read_reg flakyEnv openHandle 0x12 (World.init 1)).2.trace =
        [BusOp.sysWrite 3 [0x12], BusOp.sysRead 3 1]) ∧
    ((configure_portA flakyEnv openHandle 0xF0 0xF0 (World.init 1) 0x00).1 =
        .error (Err.sysErr "i2c write(reg,value)") ∧
      (configure_portA flakyEnv openHandle 0xF0 0xF0 (World.init 1) 0x00).2.trace =
        [BusOp.sysWrite 3 [0x00, 0xF0], BusOp.sysWrite 3 [0x0C, 0xF0]]) :=
  ⟨(no_retry_immediate_failure flakyEnv openHandle (by decide) 0x14 0x0F 0xF0 0xF0 0x00
      (World.init 0)).1,
   (no_retry_immediate_failure flakyEnv openHandle (by decide) 0x12 0x0F 0xF0 0xF0 0x00
      (World.init 0)).2.1,
   (no_retry_immediate_failure flakyEnv openHandle (by decide) 0x12 0x0F 0xF0 0xF0 0x00
      (World.init 1)).2.1,
   (no_retry_immediate_failure flakyEnv openHandle (by decide) 0x12 0x0F 0xF0 0xF0 0x00
      (World.init 1)).2.2⟩

/-- C11: release bounce. From `Pressed(K)` (`waiting_release = true`), a turn
whose initial scan detects no key but whose release-confirmation sub-scan, made
after the 30 ms sleep, detects a key (`K` or any other) leaves the state as it
was, so `last_key` is still `K` and `waiting_release` still set, throws nothing
and prints nothing. -/
theorem release_bounce {σ : Type} (E : Env σ) (h : MCP23017) (poll_ms : Nat)
    (st : ScanState) (w w1 w3 : World σ) (again : Char)
    (hpressed : st.waiting_release = true)
    (hscan : scan_pass E h w = (.ok '\x00', w1))
    (hrel : scan_pass E h { w1 with env := E.sleep w1.env 30000 } = (.ok again, w3))
    (hag : again ≠ '\x00') :
    (loop_body E h poll_ms st w).1 = .ok () ∧
    (loop_body E h poll_ms st w).2.1 = st ∧
    (loop_body E h poll_ms st w).2.2.cout = w.cout := by
  have hc1 : w1.cout = w.cout := scan_pass_cout_of_eq E h w w1 _ hscan
  have hc3 : w3.cout = w1.cout := scan_pass_cout_of_eq E h _ w3 _ hrel |>.trans rfl
  rw [loop_body_pressed_release E h poll_ms st w w1 w3 again hpressed hscan hrel, if_neg hag]
  exact ⟨rfl, rfl, hc3.trans hc1⟩

theorem release_bounce_witness :
    (loop_body scriptEnv openHandle 5 { last_key := '8', waiting_release := true }
      (World.init [0xF0, 0xF0, 0xF0, 0xF0, 0xE0])).1 = .ok () ∧
    (loop_body scriptEnv openHandle 5 { last_key := '8', waiting_release := true }
      (World.init [0xF0, 0xF0, 0xF0, 0xF0, 0xE0])).2.1 =
        { last_key := '8', waiting_release := true } ∧
    (loop_body scriptEnv openHandle 5 { last_key := '8', waiting_release := true }
      (World.init [0xF0, 0xF0, 0xF0, 0xF0, 0xE0])).2.2.cout = [] :=
  release_bounce scriptEnv openHandle 5 { last_key := '8', waiting_release := true }
    (World.init [0xF0, 0xF0, 0xF0, 0xF0, 0xE0])
    (scan_pass scriptEnv openHandle (World.init [0xF0, 0xF0, 0xF0, 0xF0, 0xE0])).2
    (scan_pass scriptEnv openHandle
      (scan_pass scriptEnv openHandle (World.init [0xF0, 0xF0, 0xF0, 0xF0, 0xE0])).2).2
    '1' rfl rfl rfl (by decide)

/-! ## The bus trace on a transport that does not fail -/

theorem write_olata_reliable {σ : Type} (E : Env σ) (hE : Reliable E) (h : MCP23017)
    (hfd : 0 ≤ h.fd_) (v : Nat) (w : World σ) :
    write_olata E h v w =
      (.ok (), { env := (E.sysWrite w.env h.fd_ [REG_OLATA, v]).1,
                 trace := w.trace ++ [BusOp.sysWrite h.fd_ [REG_OLATA, v]],
                 cout := w.cout }) := by
  unfold write_olata
  rw [write_reg_open E h hfd]
  simp [hE.1]

theorem read_gpioA_reliable {σ : Type} (E : Env σ) (hE : Reliable E) (h : MCP23017)
    (hfd : 0 ≤ h.fd_) (w : World σ) :
    read_gpioA E h w =
      (.ok ((E.sysRead (E.sysWrite w.env h.fd_ [REG_GPIOA]).1 h.fd_).2.2 % 256),
       { env := (E.sysRead (E.sysWrite w.env h.fd_ [REG_GPIOA]).1 h.fd_).1,
         trace := w.trace ++ [BusOp.sysWrite h.fd_ [REG_GPIOA], BusOp.sysRead h.fd_ 1],
         cout := w.cout }) := by
  unfold read_gpioA
  rw [read_reg_open E h hfd]
  simp [hE.1, hE.2]

theorem strobes_succ (fd : Int) (first k : Nat) :
    strobe_ops fd first ++ strobes fd (first + 1) k = strobes fd first (k + 1) := by
  unfold strobes
  rw [List.range_succ_eq_map]
  simp [List.flatMap_cons, List.flatMap_map, Nat.add_assoc, Nat.add_comm 1]

theorem row_loop_reliable {σ : Type} (E : Env σ) (hE : Reliable E) (h : MCP23017)
    (hfd : 0 ≤ h.fd_) (n : Nat) (hn : n ≤ 4) :
    ∀ (found : Char) (w : World σ), ∃ k f, k ≤ n ∧ (found = '\x00' → 0 < n → 0 < k) ∧
      (row_loop E h n found w).1 = .ok f ∧
      (row_loop E h n found w).2.trace = w.trace ++ strobes h.fd_ (4 - n) k := by
  induction n with
  | zero =>
    intro found w
    exact ⟨0, found, le_refl 0, fun _ h0 => absurd h0 (lt_irrefl 0), rfl, by simp [row_loop, strobes]⟩
  | succ n ih =>
    intro found w
    by_cases hf : found = '\x00'
    · subst hf
      unfold row_loop
      simp only [ne_eq, not_true_eq_false, if_false]
      rw [write_olata_reliable E hE h hfd]
      dsimp only
      rw [read_gpioA_reliable E hE h hfd]
      dsimp only
      obtain ⟨k, f, hk, _, hres, htr⟩ := ih (Nat.le_of_succ_le hn) _ _
      refine ⟨k + 1, f, Nat.succ_le_succ hk, fun _ _ => Nat.succ_pos k, hres, ?_⟩
      rw [htr]
      have h4 : 4 - n = (4 - (n + 1)) + 1 := by omega
      rw [h4, ← strobes_succ]
      simp [strobe_ops, List.append_assoc]
    · refine ⟨0, found, Nat.zero_le _, fun h0 => absurd h0 hf, ?_, ?_⟩
      · rw [row_loop_found E h _ found w hf]
      · rw [row_loop_found E h _ found w hf]
        simp [strobes]

theorem scan_pass_reliable {σ : Type} (E : Env σ) (hE : Reliable E) (h : MCP23017)
    (hfd : 0 ≤ h.fd_) (w : World σ) :
    ∃ k f, 1 ≤ k ∧ k ≤ 4 ∧ (scan_pass E h w).1 = .ok f ∧
      (scan_pass E h w).2.trace = w.trace ++ strobes h.fd_ 0 k ++ [restore_op h.fd_] ∧
      ∃ s, (scan_pass E h w).2.env = (E.sysWrite s h.fd_ [REG_OLATA, rows_idle]).1 := by
  obtain ⟨k, f, hk, hpos, hres, htr⟩ := row_loop_reliable E hE h hfd 4 (le_refl 4) '\x00' w
  refine ⟨k, f, hpos rfl (by norm_num), hk, ?_⟩
  unfold scan_pass
  generalize row_loop E h 4 '\x00' w = res at hres htr
  obtain ⟨r1, w1⟩ := res
  cases hres
  dsimp only
  rw [write_olata_reliable E hE h hfd]
  dsimp only at htr ⊢
  rw [htr]
  exact ⟨rfl, rfl, w1.env, rfl⟩

theorem scan_pass_reliable_eq {σ : Type} (E : Env σ) (hE : Reliable E) (h : MCP23017)
    (hfd : 0 ≤ h.fd_) (w : World σ) :
    ∃ f, scan_pass E h w = (.ok f, (scan_pass E h w).2) := by
  obtain ⟨_, f, _, _, hres, _⟩ := scan_pass_reliable E hE h hfd w
  exact ⟨f, scan_pass_eq_of_fst E h w f hres⟩

theorem loop_body_idle_none {σ : Type} (E : Env σ) (h : MCP23017) (poll_ms : Nat)
    (st : ScanState) (w w1 : World σ) (hidle : st.waiting_release = false)
    (hscan : scan_pass E h w = (.ok '\x00', w1)) :
    loop_body E h poll_ms st w =
      (.ok (), st, { w1 with env := E.sleep w1.env (poll_ms * 1000) }) := by
  simp [loop_body, hscan, hidle]

theorem loop_body_reliable {σ : Type} (E : Env σ) (hE : Reliable E) (h : MCP23017)
    (hfd : 0 ≤ h.fd_) (poll_ms : Nat) (st : ScanState) (w : World σ) :
    (loop_body E h poll_ms st w).1 = .ok () ∧
    ∃ w0 : World σ,
      (loop_body E h poll_ms st w).2.2.trace = (scan_pass E h w0).2.trace ∧
      (loop_body E h poll_ms st w).2.2.env =
        E.sleep (scan_pass E h w0).2.env (poll_ms * 1000) := by
  obtain ⟨f, hs⟩ := scan_pass_reliable_eq E hE h hfd w
  obtain ⟨f2, hs2⟩ := scan_pass_reliable_eq E hE h hfd
    { (scan_pass E h w).2 with env := E.sleep (scan_pass E h w).2.env 20000 }
  obtain ⟨f3, hs3⟩ := scan_pass_reliable_eq E hE h hfd
    { (scan_pass E h w).2 with env := E.sleep (scan_pass E h w).2.env 30000 }
  cases hwr : st.waiting_release with
  | false =>
    by_cases hf : f = '\x00'
    · subst hf
      rw [loop_body_idle_none E h poll_ms st w _ hwr hs]
      exact ⟨rfl, w, rfl, rfl⟩
    · rw [loop_body_idle_confirm E h poll_ms st w _ _ f f2 hwr hf hs hs2]
      by_cases hc : f2 = f
      · rw [if_pos hc]
        exact ⟨rfl, _, rfl, rfl⟩
      · rw [if_neg hc]
        exact ⟨rfl, _, rfl, rfl⟩
  | true =>
    by_cases hf : f = '\x00'
    · subst hf
      rw [loop_body_pressed_release E h poll_ms st w _ _ f3 hwr hs hs3]
      by_cases hc : f3 = '\x00'
      · rw [if_pos hc]
        exact ⟨rfl, _, rfl, rfl⟩
      · rw [if_neg hc]
        exact ⟨rfl, _, rfl, rfl⟩
    · rw [loop_body_pressed_found E h poll_ms st w _ f hwr hf hs]
      exact ⟨rfl, w, rfl, rfl⟩

theorem row_out_values : row_out 0 = 0x0E ∧ row_out 1 = 0x0D ∧ row_out 2 = 0x0B ∧ row_out 3 = 0x07 := by
  decide

theorem row_out_bits (r : Nat) (hr : r < 4) (i : Nat) :
    (row_out r).testBit i = (decide (i < 4) && decide (i ≠ r)) := by
  by_cases hi : i < 4
  · interval_cases r <;> interval_cases i <;> decide
  · have h16 : row_out r < 2 ^ i := by
      have hlt : row_out r < 16 := by interval_cases r <;> decide
      have : 2 ^ 4 ≤ 2 ^ i := Nat.pow_le_pow_right (by norm_num) (Nat.le_of_not_lt hi)
      omega
    rw [Nat.testBit_lt_two_pow h16]
    simp [hi]

theorem simEnv_reliable (keys : Nat → Option (Nat × Nat)) (stopAfter : Nat) :
    Reliable (simEnv keys stopAfter) := by
  constructor
  · intro s fd buf
    simp only [simEnv]
    split <;> simp
  · intro s fd
    simp only [simEnv]
    split
    · rfl
    · split <;> rfl

/-! ## Claims about the bus protocol of the scan -/

/-- C12: on a transport that does not fail, every scan pass (the same code
serves as initial scan, confirmation sub-scan and release-confirmation
sub-scan) returns normally and its last bus system call is the write of
`0x0F` to the output-latch register `0x14`, whether it visited all four rows
or stopped at a hit; the environment is then in the state that write left.
Every turn of the loop ends, but for the poll sleep, where one of its scan
passes ended, so the last bus system call of every turn is that write too, and
on the simulated chip the latch holds `0x0F` at the end of every turn. -/
theorem latch_restored {σ : Type} (E : Env σ) (hE : Reliable E) (h : MCP23017)
    (hfd : 0 ≤ h.fd_) (poll_ms : Nat) (st : ScanState) (w : World σ) :
    ((∃ f, (scan_pass E h w).1 = .ok f) ∧
      (scan_pass E h w).2.trace.getLast? = some (BusOp.sysWrite h.fd_ [0x14, 0x0F]) ∧
      ∃ s, (scan_pass E h w).2.env = (E.sysWrite s h.fd_ [0x14, 0x0F]).1) ∧
    ((loop_body E h poll_ms st w).1 = .ok () ∧
      (loop_body E h poll_ms st w).2.2.trace.getLast? =
        some (BusOp.sysWrite h.fd_ [0x14, 0x0F]) ∧
      ∃ s, (loop_body E h poll_ms st w).2.2.env =
        E.sleep (E.sysWrite s h.fd_ [0x14, 0x0F]).1 (poll_ms * 1000)) ∧
    (∀ (keys : Nat → Option (Nat × Nat)) (stopAfter : Nat) (ws : World SimChip),
      (loop_body (simEnv keys stopAfter) h poll_ms st ws).2.2.env.olat = 0x0F) := by
  have hscan : ∀ {τ : Type} (F : Env τ), Reliable F → ∀ (w0 : World τ),
      (∃ f, (scan_pass F h w0).1 = .ok f) ∧
      (scan_pass F h w0).2.trace.getLast? = some (BusOp.sysWrite h.fd_ [0x14, 0x0F]) ∧
      ∃ s, (scan_pass F h w0).2.env = (F.sysWrite s h.fd_ [0x14, 0x0F]).1 := by
    intro τ F hF w0
    obtain ⟨k, f, _, _, hres, htr, s, henv⟩ := scan_pass_reliable F hF h hfd w0
    refine ⟨⟨f, hres⟩, ?_, s, henv⟩
    rw [htr]
    simp [restore_op, REG_OLATA, rows_idle, ROW_MASK]
  have hbody : ∀ {τ : Type} (F : Env τ), Reliable F → ∀ (w0 : World τ),
      (loop_body F h poll_ms st w0).1 = .ok () ∧
      (loop_body F h poll_ms st w0).2.2.trace.getLast? =
        some (BusOp.sysWrite h.fd_ [0x14, 0x0F]) ∧
      ∃ s, (loop_body F h poll_ms st w0).2.2.env =
        F.sleep (F.sysWrite s h.fd_ [0x14, 0x0F]).1 (poll_ms * 1000) := by
    intro τ F hF w0
    obtain ⟨hok, w1, htr, henv⟩ := loop_body_reliable F hF h hfd poll_ms st w0
    obtain ⟨_, hlast, s, hs⟩ := hscan F hF w1
    refine ⟨hok, ?_, s, ?_⟩
    · rw [htr]
      exact hlast
    · rw [henv, hs]
  refine ⟨hscan E hE w, hbody E hE w, ?_⟩
  intro keys stopAfter ws
  obtain ⟨_, _, s, hs⟩ := hbody (simEnv keys stopAfter) (simEnv_reliable keys stopAfter) ws
  rw [hs]
  simp [simEnv]

theorem latch_restored_witness :
    ((∃ f, (scan_pass (simEnv (fun _ => some (1, 2)) 6) openHandle (World.init {})).1 = .ok f) ∧
      (scan_pass (simEnv (fun _ => some (1, 2)) 6) openHandle
        (World.init {})).2.trace.getLast? = some (BusOp.sysWrite 3 [0x14, 0x0F]) ∧
      ∃ s, (scan_pass (simEnv (fun _ => some (1, 2)) 6) openHandle (World.init {})).2.env =
        ((simEnv (fun _ => some (1, 2)) 6).sysWrite s 3 [0x14, 0x0F]).1) ∧
    ((loop_body (simEnv (fun _ => some (1, 2)) 6) openHandle 5 {} (World.init {})).1 = .ok () ∧
      (loop_body (simEnv (fun _ => some (1, 2)) 6) openHandle 5 {}
        (World.init {})).2.2.trace.getLast? = some (BusOp.sysWrite 3 [0x14, 0x0F]) ∧
      ∃ s, (loop_body (simEnv (fun _ => some (1, 2)) 6) openHandle 5 {} (World.init {})).2.2.env =
        (simEnv (fun _ => some (1, 2)) 6).sleep
          ((simEnv (fun _ => some (1, 2)) 6).sysWrite s 3 [0x14, 0x0F]).1 (5 * 1000)) ∧
    (∀ (keys : Nat → Option (Nat × Nat)) (stopAfter : Nat) (ws : World SimChip),
      (loop_body (simEnv keys stopAfter) openHandle 5 {} ws).2.2.env.olat = 0x0F) :=
  latch_restored (simEnv (fun _ => some (1, 2)) 6) (simEnv_reliable _ 6) openHandle (by decide)
    5 {} (World.init {})

/-- C13: row strobe byte. The byte written for row `r` is `0x0F` with bit `r`
cleared (`0x0E`, `0x0D`, `0x0B`, `0x07`): of its bits exactly the row bits other
than `r` are set, so row `r` is low, the other three rows are high and the high
nibble is 0. On a transport that does not fail a scan pass visits rows
`0, 1, ..., k - 1` in this order for some `1 ≤ k ≤ 4`, and each visit is that
write to the latch register `0x14` followed by exactly one GPIO read (the
address write `[0x12]` and the one-byte read); the restoring write ends the
pass. -/
theorem row_strobe_bytes {σ : Type} (E : Env σ) (hE : Reliable E) (h : MCP23017)
    (hfd : 0 ≤ h.fd_) (w : World σ) :
    (row_out 0 = 0x0E ∧ row_out 1 = 0x0D ∧ row_out 2 = 0x0B ∧ row_out 3 = 0x07) ∧
    (∀ r < 4, ∀ i, (row_out r).testBit i = (decide (i < 4) && decide (i ≠ r))) ∧
    ∃ k, 1 ≤ k ∧ k ≤ 4 ∧
      (scan_pass E h w).2.trace =
        w.trace ++
        (List.range k).flatMap (fun r =>
          [BusOp.sysWrite h.fd_ [0x14, row_out r], BusOp.sysWrite h.fd_ [0x12],
           BusOp.sysRead h.fd_ 1]) ++
        [BusOp.sysWrite h.fd_ [0x14, 0x0F]] := by
  refine ⟨row_out_values, fun r hr i => row_out_bits r hr i, ?_⟩
  obtain ⟨k, f, hk1, hk4, _, htr, _⟩ := scan_pass_reliable E hE h hfd w
  refine ⟨k, hk1, hk4, ?_⟩
  rw [htr]
  simp [strobes, strobe_ops, restore_op, REG_OLATA, REG_GPIOA, rows_idle, ROW_MASK]

theorem row_strobe_bytes_witness :
    (row_out 0 = 0x0E ∧ row_out 1 = 0x0D ∧ row_out 2 = 0x0B ∧ row_out 3 = 0x07) ∧
    (∀ r < 4, ∀ i, (row_out r).testBit i = (decide (i < 4) && decide (i ≠ r))) ∧
    ∃ k, 1 ≤ k ∧ k ≤ 4 ∧
      (scan_pass (simEnv (fun _ => some (1, 2)) 6) openHandle (World.init {})).2.trace =
        [] ++
        (List.range k).flatMap (fun r =>
          [BusOp.sysWrite 3 [0x14, row_out r], BusOp.sysWrite 3 [0x12], BusOp.sysRead 3 1]) ++
        [BusOp.sysWrite 3 [0x14, 0x0F]] :=
  row_strobe_bytes (simEnv (fun _ => some (1, 2)) 6) (simEnv_reliable _ 6) openHandle
    (by decide) (World.init {})

/-- C14: register protocol. On an open handle and a transport that does not
fail, `read_gpioA` makes exactly the one-byte write `[0x12]` and then one
one-byte read, and returns what the read left in the `uint8_t` buffer, which is
the byte read; `write_olata(v)` makes exactly one two-byte write `[0x14, v]`
with `v` as given, and no read. -/
theorem register_protocol {σ : Type} (E : Env σ) (hE : Reliable E) (h : MCP23017)
    (hfd : 0 ≤ h.fd_) (v : Nat) (w : World σ) :
    ((read_gpioA E h w).1 =
        .ok ((E.sysRead (E.sysWrite w.env h.fd_ [0x12]).1 h.fd_).2.2 % 256) ∧
      ((E.sysRead (E.sysWrite w.env h.fd_ [0x12]).1 h.fd_).2.2 < 256 →
        (read_gpioA E h w).1 = .ok (E.sysRead (E.sysWrite w.env h.fd_ [0x12]).1 h.fd_).2.2) ∧
      (read_gpioA E h w).2.trace =
        w.trace ++ [BusOp.sysWrite h.fd_ [0x12], BusOp.sysRead h.fd_ 1]) ∧
    ((write_olata E h v w).1 = .ok () ∧
      (write_olata E h v w).2.trace = w.trace ++ [BusOp.sysWrite h.fd_ [0x14, v]]) := by
  rw [read_gpioA_reliable E hE h hfd, write_olata_reliable E hE h hfd]
  refine ⟨⟨rfl, ?_, rfl⟩, rfl, rfl⟩
  intro hb
  have hb2 : (E.sysRead (E.sysWrite w.env h.fd_ [REG_GPIOA]).1 h.fd_).2.2 < 256 := hb
  show Except.ok (_ % 256) = _
  rw [Nat.mod_eq_of_lt hb2]
  rfl

theorem register_protocol_witness :
    ((read_gpioA (simEnv (fun _ => some (0, 1)) 6) openHandle
        (World.init { olat := 0x0E })).1 = .ok (0xDE % 256) ∧
      (read_gpioA (simEnv (fun _ => some (0, 1)) 6) openHandle
        (World.init { olat := 0x0E })).1 = .ok 0xDE ∧
      (read_gpioA (simEnv (fun _ => some (0, 1)) 6) openHandle
        (World.init { olat := 0x0E })).2.trace =
        [] ++ [BusOp.sysWrite 3 [0x12], BusOp.sysRead 3 1]) ∧
    ((write_olata (simEnv (fun _ => some (0, 1)) 6) openHandle 0xA5
        (World.init { olat := 0x0E })).1 = .ok () ∧
      (write_olata (simEnv (fun _ => some (0, 1)) 6) openHandle 0xA5
        (World.init { olat := 0x0E })).2.trace = [] ++ [BusOp.sysWrite 3 [0x14, 0xA5]]) :=
  have hp := register_protocol (simEnv (fun _ => some (0, 1)) 6) (simEnv_reliable _ 6)
    openHandle (by decide) 0xA5 (World.init { olat := 0x0E })
  ⟨⟨hp.1.1, hp.1.2.1 (by decide), hp.1.2.2⟩, hp.2⟩

/-! ## Opening and closing the bus -/

theorem open_bus_open {σ : Type} (E : Env σ) (h : MCP23017) (w : World σ) (hfd : 0 ≤ h.fd_) :
    open_bus E h w = (.ok (), h, w) := by
  simp [open_bus, hfd]

theorem close_bus_closed {σ : Type} (E : Env σ) (h : MCP23017) (w : World σ) (hfd : h.fd_ < 0) :
    close_bus E h w = (h, w) := by
  simp [close_bus, not_le.mpr hfd]

theorem close_bus_fd {σ : Type} (E : Env σ) (h : MCP23017) (w : World σ) :
    (close_bus E h w).1.fd_ < 0 := by
  unfold close_bus
  split
  · show (-1 : Int) < 0
    decide
  · next hneg => exact not_le.mp hneg

theorem open_bus_ok_fd {σ : Type} (E : Env σ) (h : MCP23017) (w : World σ)
    (hok : (open_bus E h w).1 = .ok ()) : 0 ≤ (open_bus E h w).2.1.fd_ := by
  unfold open_bus at hok ⊢
  split
  · next hfd => exact hfd
  · next hfd =>
    rw [if_neg hfd] at hok
    dsimp only at hok ⊢
    split
    · next ho =>
      rw [if_pos ho] at hok
      cases hok
    · next ho =>
      rw [if_neg ho] at hok
      split
      · next hi =>
        rw [if_pos hi] at hok
        cases hok
      · exact not_lt.mp ho

/-- C15: `open_bus` and `close_bus` are idempotent. On an open handle
(`fd_ ≥ 0`) `open_bus` returns normally with the handle and the world as they
were, so no system call is made; on a closed handle (`fd_ < 0`, which is also
the never-opened one) `close_bus`, which cannot throw, leaves handle and world
as they were; calling `close_bus` twice gives what calling it once gives, and
so does calling `open_bus` twice. -/
theorem open_close_idempotent {σ : Type} (E : Env σ) (h : MCP23017) (w : World σ) :
    (0 ≤ h.fd_ → open_bus E h w = (.ok (), h, w)) ∧
    (h.fd_ < 0 → close_bus E h w = (h, w)) ∧
    close_bus_twice E h w = close_bus E h w ∧
    open_bus_twice E h w = open_bus E h w := by
  refine ⟨open_bus_open E h w, close_bus_closed E h w, ?_, ?_⟩
  · unfold close_bus_twice
    exact close_bus_closed E _ _ (close_bus_fd E h w)
  · unfold open_bus_twice
    have hfd := open_bus_ok_fd E h w
    generalize open_bus E h w = res at hfd ⊢
    obtain ⟨r, h1, w1⟩ := res
    cases r with
    | error e => rfl
    | ok u =>
      dsimp only
      exact open_bus_open E h1 w1 (hfd rfl)

theorem open_close_idempotent_witness :
    (open_bus flakyEnv openHandle (World.init 5) = (.ok (), openHandle, World.init 5) ∧
      close_bus_twice flakyEnv openHandle (World.init 5) =
        close_bus flakyEnv openHandle (World.init 5) ∧
      open_bus_twice flakyEnv openHandle (World.init 5) =
        open_bus flakyEnv openHandle (World.init 5)) ∧
    (close_bus flakyEnv closedHandle (World.init 5) = (closedHandle, World.init 5) ∧
      close_bus_twice flakyEnv closedHandle (World.init 5) =
        close_bus flakyEnv closedHandle (World.init 5) ∧
      open_bus_twice flakyEnv closedHandle (World.init 5) =
        open_bus flakyEnv closedHandle (World.init 5)) :=
  have ho := open_close_idempotent flakyEnv openHandle (World.init 5)
  have hc := open_close_idempotent flakyEnv closedHandle (World.init 5)
  ⟨⟨ho.1 (by decide), ho.2.2.1, ho.2.2.2⟩, ⟨hc.2.1 (by decide), hc.2.2.1, hc.2.2.2⟩⟩

/-- C18: a failed open is atomic. `open_bus` on a closed handle, when `::open`
fails (returning `-1`, as POSIX has it) or `::ioctl(I2C_SLAVE)` fails, throws,
and leaves `fd_ = -1`; in the second case the descriptor `::open` returned has
been closed. A `read_reg` or `write_reg` on the handle it leaves therefore
throws the not-open error without a system call. -/
theorem failed_open_atomic {σ : Type} (E : Env σ) (h : MCP23017) (w : World σ)
    (hclosed : h.fd_ < 0)
    (hposix : (E.sysOpen w.env h.dev_).2 < 0 → (E.sysOpen w.env h.dev_).2 = -1)
    (hfail : (E.sysOpen w.env h.dev_).2 < 0 ∨
      (E.sysIoctl (E.sysOpen w.env h.dev_).1 (E.sysOpen w.env h.dev_).2 h.addr_).2 < 0) :
    (open_bus E h w).1 =
      .error (Err.sysErr (if (E.sysOpen w.env h.dev_).2 < 0 then "open(i2c)"
        else "ioctl(I2C_SLAVE)")) ∧
    (open_bus E h w).2.1.fd_ = -1 ∧
    (open_bus E h w).2.2.trace =
      w.trace ++ (if (E.sysOpen w.env h.dev_).2 < 0 then [BusOp.sysOpen h.dev_]
        else [BusOp.sysOpen h.dev_, BusOp.sysIoctl (E.sysOpen w.env h.dev_).2 h.addr_,
          BusOp.sysClose (E.sysOpen w.env h.dev_).2]) ∧
    (∀ (reg value : Nat) (w1 : World σ),
      read_reg E (open_bus E h w).2.1 reg w1 = (.error Err.notOpen, w1) ∧
      write_reg E (open_bus E h w).2.1 reg value w1 = (.error Err.notOpen, w1)) := by
  have hn : ¬ 0 ≤ h.fd_ := not_le.mpr hclosed
  have key : (open_bus E h w).1 =
      .error (Err.sysErr (if (E.sysOpen w.env h.dev_).2 < 0 then "open(i2c)"
        else "ioctl(I2C_SLAVE)")) ∧
    (open_bus E h w).2.1.fd_ = -1 ∧
    (open_bus E h w).2.2.trace =
      w.trace ++ (if (E.sysOpen w.env h.dev_).2 < 0 then [BusOp.sysOpen h.dev_]
        else [BusOp.sysOpen h.dev_, BusOp.sysIoctl (E.sysOpen w.env h.dev_).2 h.addr_,
          BusOp.sysClose (E.sysOpen w.env h.dev_).2]) := by
    by_cases ho : (E.sysOpen w.env h.dev_).2 < 0
    · simp [open_bus, hn, ho, hposix ho]
    · have hi : (E.sysIoctl (E.sysOpen w.env h.dev_).1 (E.sysOpen w.env h.dev_).2 h.addr_).2 < 0 :=
        hfail.resolve_left ho
      simp [open_bus, hn, ho, hi]
  refine ⟨key.1, key.2.1, key.2.2, ?_⟩
  intro reg value w1
  have hneg : (open_bus E h w).2.1.fd_ < 0 := by
    rw [key.2.1]
    decide
  constructor
  · simp [read_reg, ensure_open, hneg]
  · simp [write_reg, ensure_open, hneg]

theorem failed_open_atomic_witness :
    ((open_bus (deviceEnv (-1) 0) closedHandle (World.init ())).1 =
        .error (Err.sysErr "open(i2c)") ∧
      (open_bus (deviceEnv (-1) 0) closedHandle (World.init ())).2.1.fd_ = -1 ∧
      (open_bus (deviceEnv (-1) 0) closedHandle (World.init ())).2.2.trace =
        [BusOp.sysOpen "/dev/i2c-3"]) ∧
    ((open_bus (deviceEnv 3 (-1)) closedHandle (World.init ())).1 =
        .error (Err.sysErr "ioctl(I2C_SLAVE)") ∧
      (open_bus (deviceEnv 3 (-1)) closedHandle (World.init ())).2.1.fd_ = -1 ∧
      (open_bus (deviceEnv 3 (-1)) closedHandle (World.init ())).2.2.trace =
        [BusOp.sysOpen "/dev/i2c-3", BusOp.sysIoctl 3 0x20, BusOp.sysClose 3] ∧
      read_reg (deviceEnv 3 (-1)) (open_bus (deviceEnv 3 (-1)) closedHandle (World.init ())).2.1
        0x12 (World.init ()) = (.error Err.notOpen, World.init ())) :=
  have h1 := failed_open_atomic (deviceEnv (-1) 0) closedHandle (World.init ()) (by decide)
    (fun _ => rfl) (Or.inl (by decide))
  have h2 := failed_open_atomic (deviceEnv 3 (-1)) closedHandle (World.init ()) (by decide)
    (fun hneg => absurd hneg (by decide)) (Or.inr (by decide))
  ⟨⟨h1.1, h1.2.1, h1.2.2.1⟩, ⟨h2.1, h2.2.1, h2.2.2.1, (h2.2.2.2 0x12 0 (World.init ())).1⟩⟩

/-! ## The command line (`main.cpp`, `parse_u8`) -/

theorem parse_u8_range (s : String) (v : Nat) (hv : parse_u8 s = .ok v) : v ≤ 0x7F := by
  unfold parse_u8 at hv
  dsimp only at hv
  split at hv
  · cases hv
  · next hc =>
    have hc2 := not_or.mp hc
    have hc3 := not_or.mp hc2.2
    have h0 : 0 ≤ (strtol (c_str s)).1 := not_lt.mp hc3.1
    have h1 : (strtol (c_str s)).1 ≤ 0x7F := not_lt.mp hc3.2
    have hv2 := Except.ok.inj hv
    omega

/-- C16 fails on the code: the empty string is accepted as address 0. With no
digit `strtol` converts nothing, returns 0 and leaves `end` at the start of the
text, where `*end` is the terminating NUL, so none of the tests of `parse_u8`
fires. A numeral with a leading `0` is read as octal, `010` giving 8, and white
space or a sign before the number is accepted. Well-formed addresses in range
are returned, and trailing text and values above `0x7F` are rejected. -/
theorem parse_u8_accepts_empty :
    parse_u8 "" = .ok 0 ∧
    parse_u8 "010" = .ok 8 ∧
    parse_u8 " +5" = .ok 5 ∧
    parse_u8 "0x20" = .ok 0x20 ∧
    parse_u8 "127" = .ok 127 ∧
    parse_u8 "128" = .error "Invalid address value: 128" ∧
    parse_u8 "0x20z" = .error "Invalid address value: 0x20z" :=
  ⟨rfl, rfl, rfl, rfl, rfl, rfl, rfl⟩

/-! ## The keys a scan can report -/

theorem col_loop_key (r : Nat) (hr : r < 4) (cols : Nat) (found : Char) (n : Nat) (hn : n ≤ 4) :
    col_loop r cols found n = found ∨ IsKey (col_loop r cols found n) := by
  induction n with
  | zero => exact Or.inl rfl
  | succ n ih =>
    unfold col_loop
    dsimp only
    split
    · exact Or.inr ⟨r, hr, 4 - (n + 1), by omega, rfl⟩
    · exact ih (Nat.le_of_succ_le hn)

theorem row_loop_key {σ : Type} (E : Env σ) (h : MCP23017) (n : Nat) (hn : n ≤ 4) :
    ∀ (found f : Char) (w : World σ), (row_loop E h n found w).1 = .ok f →
      f = found ∨ IsKey f := by
  induction n with
  | zero =>
    intro found f w hf
    exact Or.inl (Except.ok.inj hf).symm
  | succ n ih =>
    intro found f w hf
    unfold row_loop at hf
    split at hf
    · exact Or.inl (Except.ok.inj hf).symm
    · next hz =>
      have hz2 : found = '\x00' := not_not.mp hz
      dsimp only at hf
      split at hf
      · cases hf
      · split at hf
        · cases hf
        · next gpioA w3 _ =>
          rcases ih (Nat.le_of_succ_le hn) _ f w3 hf with heq | hk
          · split at heq
            · rcases col_loop_key (4 - (n + 1)) (by omega) ((gpioA &&& COL_MASK) % 256) found 4
                (le_refl 4) with hc | hc
              · exact Or.inl (heq.trans hc)
              · exact Or.inr (heq ▸ hc)
            · exact Or.inl heq
          · exact Or.inr hk

theorem scan_pass_key {σ : Type} (E : Env σ) (h : MCP23017) (w w1 : World σ) (f : Char)
    (hs : scan_pass E h w = (.ok f, w1)) : f = '\x00' ∨ IsKey f := by
  unfold scan_pass at hs
  split at hs
  · cases hs
  · next found w0 hrow =>
    have hk := row_loop_key E h 4 (le_refl 4) '\x00' found w (by rw [hrow])
    split at hs
    · cases hs
    · cases hs
      exact hk

theorem loop_body_last_key {σ : Type} (E : Env σ) (h : MCP23017) (poll_ms : Nat)
    (st : ScanState) (w : World σ) :
    (loop_body E h poll_ms st w).2.1 = st ∨
    (loop_body E h poll_ms st w).2.1.last_key = '\x00' ∨
    IsKey (loop_body E h poll_ms st w).2.1.last_key := by
  unfold loop_body
  split
  · exact Or.inl rfl
  · next found w1 hs =>
    have hk := scan_pass_key E h w w1 found hs
    split
    · split
      · dsimp only
        split
        · exact Or.inl rfl
        · split
          · exact Or.inr hk
          · exact Or.inl rfl
      · exact Or.inl rfl
    · split
      · dsimp only
        split
        · exact Or.inl rfl
        · split
          · exact Or.inr (Or.inl rfl)
          · exact Or.inl rfl
      · exact Or.inl rfl

theorem wellFormed_step (st st1 : ScanState) (cout cout1 : List String)
    (hwf : WellFormed st cout) (heff : TurnEffect st cout st1 cout1)
    (hkey : st1 = st ∨ st1.last_key = '\x00' ∨ IsKey st1.last_key) :
    WellFormed st1 cout1 := by
  rcases heff with ⟨hs, hc⟩ | ⟨_, hs, _⟩ | ⟨K, hK, hidle, hs, hc⟩
  · rw [hs, hc]
    exact hwf
  · rw [hs]
    exact ⟨by simp, by simp⟩
  · have hIs : IsKey K := by
      rcases hkey with h1 | h1 | h1
      · rw [hs] at h1
        rw [← h1] at hidle
        cases hidle
      · rw [hs] at h1
        exact absurd h1 hK
      · rw [hs] at h1
        exact h1
    rw [hs, hc]
    refine ⟨by simp [hK], fun _ => ⟨hIs, by simp⟩⟩

theorem loop_turn_last_key {σ : Type} (E : Env σ) (h : MCP23017) (poll_ms : Nat) (x : Run σ) :
    (loop_turn E h poll_ms x).st = x.st ∨
    (loop_turn E h poll_ms x).st.last_key = '\x00' ∨
    IsKey (loop_turn E h poll_ms x).st.last_key := by
  unfold loop_turn
  split
  · dsimp only
    split
    · exact Or.inl rfl
    · have hb := loop_body_last_key E h poll_ms x.st { x.w with env := (E.stop x.w.env).1 }
      split
      · next e st1 w1 hl => rw [hl] at hb; exact hb
      · next st1 w1 hl => rw [hl] at hb; exact hb
  · exact Or.inl rfl

/-- C17: the debounce state is well formed all along the run. For every
environment, at every evaluation of the loop condition of a run started from
`last_key = '\0'`, `waiting_release = false` (so at the start and at the end of
every turn): `waiting_release` is set if and only if `last_key` is not `'\0'`,
and when it is set `last_key` is one of the 16 symbols of the key map and the
last line printed is the press line of `last_key`. -/
theorem scan_state_well_formed {σ : Type} (E : Env σ) (h : MCP23017) (poll_ms : Nat)
    (w : World σ) (n : Nat) :
    ((main_loop E h poll_ms n (Run.init w)).st.waiting_release = true ↔
      (main_loop E h poll_ms n (Run.init w)).st.last_key ≠ '\x00') ∧
    ((main_loop E h poll_ms n (Run.init w)).st.waiting_release = true →
      (∃ r < 4, ∃ c < 4, (main_loop E h poll_ms n (Run.init w)).st.last_key = keymap r c) ∧
      (main_loop E h poll_ms n (Run.init w)).w.cout.getLast? =
        some (pressed_line (main_loop E h poll_ms n (Run.init w)).st.last_key)) := by
  have hwf : WellFormed (main_loop E h poll_ms n (Run.init w)).st
      (main_loop E h poll_ms n (Run.init w)).w.cout := by
    induction n with
    | zero => exact ⟨by simp [main_loop, Run.init], by simp [main_loop, Run.init]⟩
    | succ n ih =>
      exact wellFormed_step _ _ _ _ ih (main_loop_effect E h poll_ms (Run.init w) n)
        (loop_turn_last_key E h poll_ms _)
  exact hwf

theorem scan_state_well_formed_witness :
    ((main_loop (simEnv scenarioKeys 6) openHandle 5 2
        (Run.init (World.init {}))).st.waiting_release = true ↔
      (main_loop (simEnv scenarioKeys 6) openHandle 5 2
        (Run.init (World.init {}))).st.last_key ≠ '\x00') ∧
    (∃ r < 4, ∃ c < 4, (main_loop (simEnv scenarioKeys 6) openHandle 5 2
        (Run.init (World.init {}))).st.last_key = keymap r c) ∧
    (main_loop (simEnv scenarioKeys 6) openHandle 5 2
        (Run.init (World.init {}))).w.cout.getLast? =
      some (pressed_line (main_loop (simEnv scenarioKeys 6) openHandle 5 2
        (Run.init (World.init {}))).st.last_key) :=
  have hw := scan_state_well_formed (simEnv scenarioKeys 6) openHandle 5 (World.init {}) 2
  ⟨hw.1, hw.2 rfl⟩

/-! ## The scan does not look at the row bits it reads -/

theorem detect_sameCols (r a b : Nat) (hab : SameCols a b) : detect r a = detect r b := by
  have ha := mod_and_cols a
  have hb := mod_and_cols b
  unfold SameCols at hab
  simp only [detect, COL_MASK]
  rw [ha, hb, hab]

theorem write_olata_script (h : MCP23017) (hfd : 0 ≤ h.fd_) (v : Nat) (w : World (List Nat)) :
    write_olata scriptEnv h v w =
      (.ok (), { w with trace := w.trace ++ [BusOp.sysWrite h.fd_ [REG_OLATA, v]] }) := by
  have hn : ¬ h.fd_ < 0 := not_lt.mpr hfd
  simp [write_olata, write_reg, ensure_open, hn, scriptEnv]

theorem row_loop_script_nil (h : MCP23017) (hfd : 0 ≤ h.fd_) (n : Nat)
    (tr : List BusOp) (co : List String) :
    row_loop scriptEnv h (n + 1) '\x00' ⟨[], tr, co⟩ =
      (.error (Err.sysErr "i2c read(data)"),
        ⟨[], tr ++ strobe_ops h.fd_ (4 - (n + 1)), co⟩) := by
  have hn : ¬ h.fd_ < 0 := not_lt.mpr hfd
  simp [row_loop, write_olata, read_gpioA, write_reg, read_reg, ensure_open, hn, scriptEnv,
    strobe_ops]

theorem row_loop_sameCols (h : MCP23017) (hfd : 0 ≤ h.fd_) (n : Nat) :
    ∀ (found : Char) (gs1 gs2 : List Nat) (tr : List BusOp) (co : List String),
      List.Forall₂ SameCols gs1 gs2 →
      ∃ (r : Except Err Char) (rest1 rest2 : List Nat) (tr1 : List BusOp),
        row_loop scriptEnv h n found ⟨gs1, tr, co⟩ = (r, ⟨rest1, tr1, co⟩) ∧
        row_loop scriptEnv h n found ⟨gs2, tr, co⟩ = (r, ⟨rest2, tr1, co⟩) ∧
        List.Forall₂ SameCols rest1 rest2 := by
  induction n with
  | zero =>
    intro found gs1 gs2 tr co hag
    exact ⟨.ok found, gs1, gs2, tr, rfl, rfl, hag⟩
  | succ n ih =>
    intro found gs1 gs2 tr co hag
    by_cases hf : found = '\x00'
    · subst hf
      cases hag with
      | nil =>
        exact ⟨_, [], [], _, row_loop_script_nil h hfd n tr co, row_loop_script_nil h hfd n tr co,
          List.Forall₂.nil⟩
      | cons hab htl =>
        rw [row_loop_script h hfd, row_loop_script h hfd, detect_sameCols _ _ _ hab]
        exact ih _ _ _ _ co htl
    · exact ⟨.ok found, gs1, gs2, tr, row_loop_found _ h _ found _ hf,
        row_loop_found _ h _ found _ hf, hag⟩

theorem scan_pass_sameCols (h : MCP23017) (hfd : 0 ≤ h.fd_)
    (gs1 gs2 : List Nat) (tr : List BusOp) (co : List String)
    (hag : List.Forall₂ SameCols gs1 gs2) :
    ∃ (r : Except Err Char) (rest1 rest2 : List Nat) (tr1 : List BusOp),
      scan_pass scriptEnv h ⟨gs1, tr, co⟩ = (r, ⟨rest1, tr1, co⟩) ∧
      scan_pass scriptEnv h ⟨gs2, tr, co⟩ = (r, ⟨rest2, tr1, co⟩) ∧
      List.Forall₂ SameCols rest1 rest2 := by
  obtain ⟨r, rest1, rest2, tr1, h1, h2, hrest⟩ := row_loop_sameCols h hfd 4 '\x00' gs1 gs2 tr co hag
  unfold scan_pass
  rw [h1, h2]
  cases r with
  | error e => exact ⟨_, rest1, rest2, tr1, rfl, rfl, hrest⟩
  | ok found =>
    dsimp only
    rw [write_olata_script h hfd, write_olata_script h hfd]
    exact ⟨_, rest1, rest2, _, rfl, rfl, hrest⟩

theorem script_sleep (s : List Nat) (n : Nat) : scriptEnv.sleep s n = s := rfl

theorem loop_body_sameCols (h : MCP23017) (hfd : 0 ≤ h.fd_) (poll_ms : Nat) (st : ScanState)
    (gs1 gs2 : List Nat) (tr : List BusOp) (co : List String)
    (hag : List.Forall₂ SameCols gs1 gs2) :
    ∃ (r : Except Err Unit) (st1 : ScanState) (rest1 rest2 : List Nat) (tr1 : List BusOp)
      (co1 : List String),
      loop_body scriptEnv h poll_ms st ⟨gs1, tr, co⟩ = (r, st1, ⟨rest1, tr1, co1⟩) ∧
      loop_body scriptEnv h poll_ms st ⟨gs2, tr, co⟩ = (r, st1, ⟨rest2, tr1, co1⟩) := by
  obtain ⟨r, a1, a2, t1, e1, e2, hr⟩ := scan_pass_sameCols h hfd gs1 gs2 tr co hag
  obtain ⟨r2, b1, b2, t2, f1, f2, _⟩ := scan_pass_sameCols h hfd a1 a2 t1 co hr
  unfold loop_body
  rw [e1, e2]
  cases r with
  | error e => exact ⟨_, _, _, _, _, _, rfl, rfl⟩
  | ok found =>
    simp only [script_sleep, f1, f2]
    cases hwr : st.waiting_release with
    | false =>
      by_cases hf : found = '\x00'
      · simp only [hf, ne_eq, not_true_eq_false, if_true, if_false]
        exact ⟨_, _, _, _, _, _, rfl, rfl⟩
      · simp only [hf, ne_eq, not_false_eq_true, if_true]
        cases r2 with
        | error e => exact ⟨_, _, _, _, _, _, rfl, rfl⟩
        | ok confirm =>
          by_cases hc : confirm = found
          · simp only [hc, if_true]
            exact ⟨_, _, _, _, _, _, rfl, rfl⟩
          · simp only [hc, if_false]
            exact ⟨_, _, _, _, _, _, rfl, rfl⟩
    | true =>
      by_cases hf : found = '\x00'
      · simp only [hf, if_true, Bool.true_eq_false, if_false]
        cases r2 with
        | error e => exact ⟨_, _, _, _, _, _, rfl, rfl⟩
        | ok again =>
          by_cases hc : again = '\x00'
          · simp only [hc, if_true]
            exact ⟨_, _, _, _, _, _, rfl, rfl⟩
          · simp only [hc, if_false]
            exact ⟨_, _, _, _, _, _, rfl, rfl⟩
      · simp only [hf, Bool.true_eq_false, if_false]
        exact ⟨_, _, _, _, _, _, rfl, rfl⟩

theorem scan_pass_closed {σ : Type} (E : Env σ) (h : MCP23017) (hfd : h.fd_ < 0) (w : World σ) :
    scan_pass E h w = (.error Err.notOpen, w) := by
  simp [scan_pass, row_loop, write_olata, write_reg, ensure_open, hfd]

theorem loop_body_closed {σ : Type} (E : Env σ) (h : MCP23017) (hfd : h.fd_ < 0) (poll_ms : Nat)
    (st : ScanState) (w : World σ) :
    loop_body E h poll_ms st w = (.error Err.notOpen, st, w) := by
  simp [loop_body, scan_pass_closed E h hfd]

/-- C19: row-bit noninterference. On two buses whose reads return byte
sequences that agree, read by read, on bits 4 to 7, a scan pass started from the
same trace and output detects the same key (or the same exception) and makes
the same bus system calls, so the same latch writes, and a turn of the loop
ends in the same debounce state with the same output and the same bus system
calls: bits 0 to 3 of what is read never matter. -/
theorem row_bit_noninterference (h : MCP23017) (poll_ms : Nat) (st : ScanState)
    (gs1 gs2 : List Nat) (tr : List BusOp) (co : List String)
    (hag : List.Forall₂ (fun a b => a &&& 0xF0 = b &&& 0xF0) gs1 gs2) :
    ((scan_pass scriptEnv h ⟨gs1, tr, co⟩).1 = (scan_pass scriptEnv h ⟨gs2, tr, co⟩).1 ∧
      (scan_pass scriptEnv h ⟨gs1, tr, co⟩).2.trace =
        (scan_pass scriptEnv h ⟨gs2, tr, co⟩).2.trace) ∧
    ((loop_body scriptEnv h poll_ms st ⟨gs1, tr, co⟩).1 =
        (loop_body scriptEnv h poll_ms st ⟨gs2, tr, co⟩).1 ∧
      (loop_body scriptEnv h poll_ms st ⟨gs1, tr, co⟩).2.1 =
        (loop_body scriptEnv h poll_ms st ⟨gs2, tr, co⟩).2.1 ∧
      (loop_body scriptEnv h poll_ms st ⟨gs1, tr, co⟩).2.2.cout =
        (loop_body scriptEnv h poll_ms st ⟨gs2, tr, co⟩).2.2.cout ∧
      (loop_body scriptEnv h poll_ms st ⟨gs1, tr, co⟩).2.2.trace =
        (loop_body scriptEnv h poll_ms st ⟨gs2, tr, co⟩).2.2.trace) := by
  have hag2 : List.Forall₂ SameCols gs1 gs2 := hag
  by_cases hfd : 0 ≤ h.fd_
  · obtain ⟨r, a1, a2, t1, e1, e2, _⟩ := scan_pass_sameCols h hfd gs1 gs2 tr co hag2
    obtain ⟨rb, sb, b1, b2, t2, c2, g1, g2⟩ :=
      loop_body_sameCols h hfd poll_ms st gs1 gs2 tr co hag2
    rw [e1, e2, g1, g2]
    exact ⟨⟨rfl, rfl⟩, rfl, rfl, rfl, rfl⟩
  · have hneg : h.fd_ < 0 := not_le.mp hfd
    rw [scan_pass_closed _ h hneg, scan_pass_closed _ h hneg, loop_body_closed _ h hneg,
      loop_body_closed _ h hneg]
    exact ⟨⟨rfl, rfl⟩, rfl, rfl, rfl, rfl⟩

theorem row_bit_noninterference_witness :
    ((scan_pass scriptEnv openHandle ⟨[0xFE, 0xD7], [], []⟩).1 =
        (scan_pass scriptEnv openHandle ⟨[0xF0, 0xDA], [], []⟩).1 ∧
      (scan_pass scriptEnv openHandle ⟨[0xFE, 0xD7], [], []⟩).2.trace =
        (scan_pass scriptEnv openHandle ⟨[0xF0, 0xDA], [], []⟩).2.trace) ∧
    ((loop_body scriptEnv openHandle 5 {} ⟨[0xFE, 0xD7], [], []⟩).1 =
        (loop_body scriptEnv openHandle 5 {} ⟨[0xF0, 0xDA], [], []⟩).1 ∧
      (loop_body scriptEnv openHandle 5 {} ⟨[0xFE, 0xD7], [], []⟩).2.1 =
        (loop_body scriptEnv openHandle 5 {} ⟨[0xF0, 0xDA], [], []⟩).2.1 ∧
      (loop_body scriptEnv openHandle 5 {} ⟨[0xFE, 0xD7], [], []⟩).2.2.cout =
        (loop_body scriptEnv openHandle 5 {} ⟨[0xF0, 0xDA], [], []⟩).2.2.cout ∧
      (loop_body scriptEnv openHandle 5 {} ⟨[0xFE, 0xD7], [], []⟩).2.2.trace =
        (loop_body scriptEnv openHandle 5 {} ⟨[0xF0, 0xDA], [], []⟩).2.2.trace) :=
  row_bit_noninterference openHandle 5 {} [0xFE, 0xD7] [0xF0, 0xDA] [] []
    (List.Forall₂.cons (by decide) (List.Forall₂.cons (by decide) List.Forall₂.nil))

end Kbd
